import Mathlib

/-!
Verification of the SMOG repository's core against its specification.

Shallow embedding conventions:
* Rust machine integers (u8, u32, usize) are modelled as Nat, with explicit
  truncation (% 256, and so on) exactly where the source casts.
* f32 values manipulated arithmetically are modelled as exact rationals;
  the square root and the transcendental operations the source reaches
  through glam and bevy are threaded through an explicit `FloatFuns`
  record so that every theorem about them is stated for an arbitrary
  interpretation, and witnesses instantiate them with an exact-on-squares
  rational square root.
* On the wire (the packet codec), f32 and u32 fields are modelled by their
  32-bit patterns (a Nat below 2^32), since the codec moves raw bytes.
* Vec and VecDeque become List; in-place mutation becomes explicit state
  passing; panicking indexing is modelled with getD on inputs where the
  source is in bounds.
-/

namespace Smog

/-! ## Byte-level helpers (big-endian 32-bit words, as in f32/u32::to_be_bytes) -/

/-- Big-endian 4-byte encoding of a 32-bit word, as produced by
f32::to_be_bytes / u32::to_be_bytes on the word's bit pattern. -/
def toBe4 (n : ℕ) : List ℕ :=
  [n / 2 ^ 24 % 256, n / 2 ^ 16 % 256, n / 2 ^ 8 % 256, n % 256]

/-- Big-endian 4-byte decoding, as in f32::from_be_bytes / u32::from_be_bytes. -/
def fromBe4 (a b c d : ℕ) : ℕ :=
  ((a * 256 + b) * 256 + c) * 256 + d

/-! ## GamePacket wire codec (src/packet-tools/src/game_packets.rs)

The enum's f32 fields are represented by their 32-bit patterns, which is
what the codec reads and writes (to_be_bytes / from_be_bytes move the raw
pattern). PACKET_SIZE is 9: a one-byte tag plus an 8-byte payload. -/

/-- PACKET_SIZE from game_packets.rs. -/
def PACKET_SIZE : ℕ := 9

/-- GamePacket (game_packets.rs), with every f32 and u32 field viewed as its
32-bit pattern. -/
inductive GamePacket where
  | none
  | spawn (x y : ℕ)
  | motor (ind : ℕ) (acc : ℕ)
  | muzzle (x y : ℕ)
  | resetMuzzle
  | fire (bullet : ℕ)
  | thrust (left right : ℕ)
  | dash (coeff : ℕ)
deriving DecidableEq, Repr

/-- GamePacket::to_bytes: 1-byte tag plus 8-byte big-endian payload. -/
def GamePacket.to_bytes : GamePacket → List ℕ
  | .spawn x y => 1 :: (toBe4 x ++ toBe4 y)
  | .motor ind a => 2 :: (toBe4 ind ++ toBe4 a)
  | .muzzle x y => 3 :: (toBe4 x ++ toBe4 y)
  | .fire bullet => 4 :: bullet :: [0, 0, 0, 0, 0, 0, 0]
  | .thrust l r => 5 :: (toBe4 l ++ toBe4 r)
  | .dash c => 6 :: (toBe4 c ++ [0, 0, 0, 0])
  | .resetMuzzle => 7 :: [0, 0, 0, 0, 0, 0, 0, 0]
  | .none => [0, 0, 0, 0, 0, 0, 0, 0, 0]

/-- GamePacket::from_bytes: dispatch on the tag byte; unknown tags decode to
None (with a logged warning in the source). -/
def GamePacket.from_bytes (value : List ℕ) : GamePacket :=
  match value with
  | [kind, b1, b2, b3, b4, b5, b6, b7, b8] =>
    match kind with
    | 1 => .spawn (fromBe4 b1 b2 b3 b4) (fromBe4 b5 b6 b7 b8)
    | 2 => .motor (fromBe4 b1 b2 b3 b4) (fromBe4 b5 b6 b7 b8)
    | 3 => .muzzle (fromBe4 b1 b2 b3 b4) (fromBe4 b5 b6 b7 b8)
    | 4 => .fire b1
    | 5 => .thrust (fromBe4 b1 b2 b3 b4) (fromBe4 b5 b6 b7 b8)
    | 6 => .dash (fromBe4 b1 b2 b3 b4)
    | 7 => .resetMuzzle
    | _ => .none
  | _ => .none

/-- Well-formed packet: every 32-bit field is an actual 32-bit pattern and the
bullet byte is a byte, as the Rust types (f32, u32, u8) guarantee. -/
def GamePacket.wf : GamePacket → Prop
  | .spawn x y => x < 2 ^ 32 ∧ y < 2 ^ 32
  | .motor ind a => ind < 2 ^ 32 ∧ a < 2 ^ 32
  | .muzzle x y => x < 2 ^ 32 ∧ y < 2 ^ 32
  | .fire bullet => bullet < 2 ^ 8
  | .thrust l r => l < 2 ^ 32 ∧ r < 2 ^ 32
  | .dash c => c < 2 ^ 32
  | .resetMuzzle => True
  | .none => True

instance (p : GamePacket) : Decidable p.wf := by
  cases p <;> unfold GamePacket.wf <;> infer_instance

/-! ## TimedQueue (src/packet-tools/src/lib.rs)

Instant and Duration are modelled as nanosecond counts; Instant::now() at a
method call becomes an explicit `now` argument. -/

/-- TimedQueue: bucketed queue with a slot duration and the timestamp of the
head bucket. -/
structure TimedQueue (P : Type) where
  queue : List (List P)
  delta : ℕ
  time : ℕ

/-- TimedQueue::new. -/
def TimedQueue.mk0 (P : Type) (delta : ℕ) (now : ℕ) : TimedQueue P :=
  { queue := [[]], delta := delta, time := now }

/-- TimedQueue::push: index the arrival into the slot (now − time) / delta,
extend the deque with empty buckets up to that slot, append to the tail. -/
def TimedQueue.push {P : Type} (q : TimedQueue P) (now : ℕ) (element : P) :
    TimedQueue P :=
  let q1 := if q.queue.isEmpty then { q with queue := [[]] } else q
  let ind := (now - q1.time) / q1.delta
  let emptySize := max ind (q1.queue.length - 1) - (q1.queue.length - 1)
  let queue2 := q1.queue ++ List.replicate emptySize []
  match queue2.length with
  | 0 => { q1 with queue := queue2 }
  | n + 1 =>
    { q1 with queue := queue2.set n ((queue2.getD n []) ++ [element]) }

/-- TimedQueue::take: reset time to now, drain at most the first num buckets,
pad with empty buckets to exactly num. -/
def TimedQueue.take {P : Type} (q : TimedQueue P) (now : ℕ) (num : ℕ) :
    List (List P) × TimedQueue P :=
  let head := q.queue.take (min num q.queue.length)
  (head ++ List.replicate (num - head.length) ([] : List P),
   { q with queue := q.queue.drop (min num q.queue.length), time := now })

/-! ## Exact-rational stand-ins for the f32 operations -/

/-- The f32 operations the solver reaches through glam/bevy that are not
exact rational arithmetic. Every theorem below is stated for an arbitrary
interpretation of these. -/
structure FloatFuns where
  sqrt : ℚ → ℚ
  sin : ℚ → ℚ
  cos : ℚ → ℚ
  atan2 : ℚ → ℚ → ℚ
  hsl : ℚ → ℚ → ℚ → ℚ × ℚ × ℚ

/-- Fuel-driven Newton iteration for the integer square root (structural
recursion so that concrete witnesses reduce inside the kernel). -/
def isqrtAux : ℕ → ℕ → ℕ → ℕ
  | 0, _, g => g
  | fuel + 1, n, g =>
    let g2 := (g + n / g) / 2
    if g2 < g then isqrtAux fuel n g2 else g

/-- Integer square root by Newton iteration (exact floor square root for
every argument below 2^64, which covers all witness inputs). -/
def isqrt (n : ℕ) : ℕ := if n ≤ 1 then n else isqrtAux 64 n n

/-- A computable square root on ℚ that is exact on perfect squares (where it
agrees with correctly rounded f32 sqrt on exactly representable values). -/
def ratSqrt (q : ℚ) : ℚ :=
  if q ≤ 0 then 0 else (isqrt q.num.natAbs : ℚ) / (isqrt q.den : ℚ)

/-- The concrete interpretation used by witnesses: exact square root on
perfect squares, trivial trigonometry (no witness exercises it). -/
def ratFuns : FloatFuns :=
  { sqrt := ratSqrt
    sin := fun _ => 0
    cos := fun _ => 1
    atan2 := fun _ _ => 0
    hsl := fun _ _ _ => (0, 0, 0) }

/-! ## 2D/4D vectors over ℚ (glam Vec2 / Vec4 as used by the source) -/

/-- Vec2 over exact rationals. -/
structure Q2 where
  x : ℚ
  y : ℚ
deriving DecidableEq, Repr

instance : Add Q2 := ⟨fun a b => ⟨a.x + b.x, a.y + b.y⟩⟩
instance : Sub Q2 := ⟨fun a b => ⟨a.x - b.x, a.y - b.y⟩⟩
instance : Neg Q2 := ⟨fun a => ⟨-a.x, -a.y⟩⟩
instance : SMul ℚ Q2 := ⟨fun c a => ⟨c * a.x, c * a.y⟩⟩
instance : Zero Q2 := ⟨⟨0, 0⟩⟩

/-- Division of a vector by a scalar (Vec2 / f32). -/
def Q2.divScalar (v : Q2) (c : ℚ) : Q2 := ⟨v.x / c, v.y / c⟩

def Q2.dot (a b : Q2) : ℚ := a.x * b.x + a.y * b.y

/-- glam Vec2::perp: rotate a quarter turn counterclockwise. -/
def Q2.perp (v : Q2) : Q2 := ⟨-v.y, v.x⟩

/-- glam Vec2::perp_dot. -/
def Q2.perp_dot (a b : Q2) : ℚ := a.x * b.y - a.y * b.x

def Q2.lengthSq (v : Q2) : ℚ := v.x * v.x + v.y * v.y

/-- glam Vec2::length, via the interpreted square root. -/
def Q2.length (F : FloatFuns) (v : Q2) : ℚ := F.sqrt v.lengthSq

/-- glam Vec2::normalize_or_zero: scale by the reciprocal length when that is
finite and positive, otherwise zero. -/
def Q2.normalize_or_zero (F : FloatFuns) (v : Q2) : Q2 :=
  let l := v.length F
  if 0 < l then (1 / l) • v else 0

/-- glam Vec2::normalize: scale by the reciprocal length. On the zero vector
the Rust value is NaN; here 1/0 = 0 yields the zero vector (no claim below
is decided on that input). -/
def Q2.normalize (F : FloatFuns) (v : Q2) : Q2 := (1 / v.length F) • v

/-- glam Vec2::distance. -/
def Q2.distance (F : FloatFuns) (a b : Q2) : ℚ := (a - b).length F

/-- glam Vec2::clamp_length. -/
def Q2.clamp_length (F : FloatFuns) (v : Q2) (mn mx : ℚ) : Q2 :=
  let lsq := v.lengthSq
  if lsq < mn * mn then mn • (v.divScalar (F.sqrt lsq))
  else if mx * mx < lsq then mx • (v.divScalar (F.sqrt lsq))
  else v

/-- glam Vec2::from_angle. -/
def Q2.from_angle (F : FloatFuns) (a : ℚ) : Q2 := ⟨F.cos a, F.sin a⟩

/-- glam Vec2::rotate (the complex product of the two vectors). -/
def Q2.rotate (a b : Q2) : Q2 :=
  ⟨a.x * b.x - a.y * b.y, a.x * b.y + a.y * b.x⟩

/-- glam Vec2::angle_between, read through the interpreted atan2. -/
def Q2.angle_between (F : FloatFuns) (a b : Q2) : ℚ := F.atan2 (a.perp_dot b) (a.dot b)

/-- f32::signum (restricted to the non-NaN inputs the model produces). -/
def signumQ (q : ℚ) : ℚ := if q < 0 then -1 else 1

/-- Vec4 over exact rationals (particle colors). -/
structure Q4 where
  x : ℚ
  y : ℚ
  z : ℚ
  w : ℚ
deriving DecidableEq, Repr

instance : Mul Q4 := ⟨fun a b => ⟨a.x * b.x, a.y * b.y, a.z * b.z, a.w * b.w⟩⟩

/-- vec4 1 1 1 1, the default particle color. -/
def Q4.one : Q4 := ⟨1, 1, 1, 1⟩

/-! ## Particle data model (src/solver/src/particle.rs) -/

/-- Particle kind. The given particle.rs declares None, Spike, Motor(f32)
and Impulse(f32); the sticky variant that src/solver/src/lib.rs
pattern-matches on is absent from that file and is modelled from the spec:
Sticky(remaining: u8, pending_partner: Option(index)). -/
inductive Kind where
  | none
  | spike
  | motor (acc : ℚ)
  | impulse (budget : ℚ)
  | sticky (remaining : ℕ) (pending : Option ℕ)
deriving DecidableEq, Repr

/-- Kind::none. -/
def Kind.isNone : Kind → Bool
  | .none => true
  | _ => false

/-- Kind::is_motor. -/
def Kind.is_motor : Kind → Bool
  | .motor _ => true
  | _ => false

/-- Kind::can_collide_with: a Motor collides with anything but a Spike, a
Spike with anything but a Motor, everything else always collides. -/
def Kind.can_collide_with (self other : Kind) : Bool :=
  match self with
  | .motor _ => !(match other with | .spike => true | _ => false)
  | .spike => !other.is_motor
  | _ => true

/-- Particle (particle.rs). -/
structure Particle where
  radius : ℚ
  mass : ℚ
  pos : Q2
  pos_old : Q2
  acc : Q2
  texture : ℕ
  kind : Kind
  color : Q4
deriving DecidableEq, Repr

/-- Particle::null (the Default). -/
def Particle.null : Particle :=
  { radius := 1 / 2, mass := 1, texture := 0, pos := 0, pos_old := 0,
    acc := 0, kind := .none, color := Q4.one }

instance : Inhabited Particle := ⟨Particle.null⟩

/-- GRAVITY = (0, -70). -/
def GRAVITY : Q2 := ⟨0, -70⟩

/-- SLOWDOWN = 100. -/
def SLOWDOWN : ℚ := 100

/-- GROUND particle constant. -/
def GROUND : Particle := { Particle.null with mass := 1, texture := 1 }

/-- METAL particle constant. -/
def METAL : Particle := { Particle.null with mass := 3, texture := 2 }

/-- MOTOR particle constant. -/
def MOTOR : Particle := { Particle.null with mass := 3, texture := 3, kind := .motor 0 }

/-- SPIKE particle constant. -/
def SPIKE : Particle :=
  { Particle.null with mass := 1 / 5, texture := 4, radius := 1 / 4, kind := .spike }

/-- PROJECTILE_HEAVY particle constant. -/
def PROJECTILE_HEAVY : Particle :=
  { Particle.null with mass := 10, texture := 2, color := ⟨1, 0, 0, 1⟩ }

/-- PROJECTILE_IMPULSE particle constant. -/
def PROJECTILE_IMPULSE : Particle :=
  { Particle.null with
      mass := 2
      texture := 2
      color := ⟨1, 0, 0, 1⟩
      kind := .impulse 1000 }

/-- Modelled from the spec: the PROJECTILE_STICKY constant is referenced by
src/smog/src/controller.rs but absent from the given particle.rs. The spec
(sec. 4.7) makes bullet tag 2 spawn a sticky projectile; field values beyond
the kind are not specified and only the kind is relied on below. -/
def PROJECTILE_STICKY : Particle :=
  { Particle.null with
      mass := 1
      texture := 2
      color := ⟨1, 0, 0, 1⟩
      kind := .sticky 1 Option.none }

/-- Modelled from the spec: the IMPULSE_VELOCITY constant is imported by
src/solver/src/lib.rs from particle.rs but absent from the given file; the
spec does not record its value. Theorems mention it only symbolically. -/
def IMPULSE_VELOCITY : ℚ := 1

/-- Modelled from the spec: Particle::is_special is called by
src/solver/src/lib.rs (add_particle, add_model) but absent from the given
particle.rs. Spec sec. 3: special lists "particles whose kind requires a
post-collision sweep (currently only Sticky)". -/
def Particle.is_special (p : Particle) : Bool :=
  match p.kind with
  | .sticky _ _ => true
  | _ => false

/-- Particle::with_position. -/
def Particle.with_position (p : Particle) (pos : Q2) : Particle :=
  { p with pos := pos, pos_old := pos }

/-- Particle::with_velocity. -/
def Particle.with_velocity (p : Particle) (velocity : Q2) : Particle :=
  { p with pos_old := p.pos - velocity }

/-- Particle::update: position Verlet with viscous damping. -/
def Particle.update (p : Particle) (dt : ℚ) : Particle :=
  let vel := p.pos - p.pos_old
  let new_pos := p.pos + vel + (dt * dt) • (p.acc - SLOWDOWN • vel)
  { p with pos_old := p.pos, pos := new_pos, acc := 0 }

/-- Particle::accelerate. -/
def Particle.accelerate (p : Particle) (acceleration : Q2) : Particle :=
  { p with acc := p.acc + acceleration }

/-- Particle::apply_gravity. -/
def Particle.apply_gravity (p : Particle) : Particle :=
  p.accelerate GRAVITY

/-- Particle::set_position. -/
def Particle.set_position (p : Particle) (pos : Q2) (keep_acc : Bool) : Particle :=
  { p with pos := pos, acc := if keep_acc then p.acc else 0 }

/-- Particle::set_velocity: pos_old = pos - speed. -/
def Particle.set_velocity (p : Particle) (speed : Q2) : Particle :=
  { p with pos_old := p.pos - speed }

/-- Particle::set_kind. -/
def Particle.set_kind (p : Particle) (kind : Kind) : Particle :=
  { p with kind := kind }

/-- Modelled from the spec: Particle::velocity is called by
src/smog/src/controller.rs but absent from the given particle.rs. Spec
sec. 3: "velocity is pos - pos_old". -/
def Particle.velocity (p : Particle) : Q2 := p.pos - p.pos_old

/-- Modelled from the spec: Particle::add_velocity is called by
src/smog/src/controller.rs (recoil) but absent from the given particle.rs.
With velocity read as pos - pos_old, adding v to the velocity moves pos_old
by -v. -/
def Particle.add_velocity (p : Particle) (v : Q2) : Particle :=
  { p with pos_old := p.pos_old - v }

/-- Particle::is_motor. -/
def Particle.is_motor (p : Particle) : Bool := p.kind.is_motor

/-! ## Links and the constraint volume (src/solver/src/lib.rs) -/

/-- Link. -/
inductive Link where
  | force (f : ℚ)
  | rigid (length durability elasticity : ℚ)
deriving DecidableEq, Repr

/-- Link::with_length. -/
def Link.with_length : Link → ℚ → Link
  | .force f, _ => .force f
  | .rigid _ d e, l => .rigid l d e

/-- Link::with_durability. -/
def Link.with_durability : Link → ℚ → Link
  | .force f, _ => .force f
  | .rigid l _ e, d => .rigid l d e

/-- Link::with_elasticity. -/
def Link.with_elasticity : Link → ℚ → Link
  | .force f, _ => .force f
  | .rigid l d _, e => .rigid l d e

/-- Link::durability (1 for a Force link). -/
def Link.durability : Link → ℚ
  | .rigid _ d _ => d
  | _ => 1

/-- Link::elasticity (100 for a Force link). -/
def Link.elasticity : Link → ℚ
  | .rigid _ _ e => e
  | _ => 100

/-- Constraint: one bounding Box(bottom-left, top-right). -/
inductive Constraint where
  | box (bl tr : Q2)
deriving DecidableEq, Repr

/-- Constraint::bounds. -/
def Constraint.bounds : Constraint → Q2 × Q2
  | .box bl tr => (bl, tr)

/-- Particle::apply_constraint: clamp each coordinate into
[bl + radius, tr - radius]; when the clamp moved the particle, zero acc. -/
def Particle.apply_constraint (p : Particle) (constraint : Constraint) : Particle :=
  match constraint with
  | .box bl tr =>
    let new_x := min (max p.pos.x (bl.x + p.radius)) (tr.x - p.radius)
    let new_y := min (max p.pos.y (bl.y + p.radius)) (tr.y - p.radius)
    if (new_x, new_y) ≠ (p.pos.x, p.pos.y) then
      p.set_position ⟨new_x, new_y⟩ false
    else p

/-! ## Batch codec (serialize_queue / deserialize_queue,
src/packet-tools/src/lib.rs)

The functions are generic over a Packet implementation; the embedding takes
the packet type and its fixed-size codec as explicit parameters. -/

/-- IndexedPacket: a sender id byte in front of a fixed-size packet. -/
structure IndexedPacket (α : Type) where
  id : ℕ
  contents : α
deriving DecidableEq, Repr

/-- IndexedPacket::to_bytes: sender byte followed by the packet bytes. -/
def IndexedPacket.toBytesWith {α : Type} (toB : α → List ℕ) (p : IndexedPacket α) :
    List ℕ :=
  p.id :: toB p.contents

/-- IndexedPacket::from_bytes: first byte is the sender, the rest decodes the
packet. -/
def IndexedPacket.fromBytesWith {α : Type} (fromB : List ℕ → α) (bytes : List ℕ) :
    IndexedPacket α :=
  { id := bytes.headD 0, contents := fromB (bytes.drop 1) }

/-- serialize_queue: each bucket becomes its length byte (len as u8) followed
by the concatenated 1+SIZE byte frames of its packets. -/
def serialize_queue {α : Type} (toB : α → List ℕ)
    (packets : List (List (IndexedPacket α))) : List ℕ :=
  (packets.map (fun bucket =>
    (bucket.length % 256) :: (bucket.map (fun p => p.toBytesWith toB)).flatten)).flatten

/-- The first len frames of 1+SIZE bytes each, decoded
(bytes.chunks(SIZE+1).take(len) in the source, under the length guard). -/
def parseBucket {α : Type} (SIZE : ℕ) (fromB : List ℕ → α) :
    ℕ → List ℕ → List (IndexedPacket α)
  | 0, _ => []
  | n + 1, bytes =>
    IndexedPacket.fromBytesWith fromB (bytes.take (SIZE + 1)) ::
      parseBucket SIZE fromB n (bytes.drop (SIZE + 1))

/-- deserialize_queue: parse complete buckets; on a bucket whose frames are
not all present, rewind to its count header, move that tail to the front of
the buffer and report its length as the residual. The second component is
that residual tail (the source returns its length, having copied it to the
front of the mutable buffer). -/
def deserialize_queue {α : Type} (SIZE : ℕ) (fromB : List ℕ → α) :
    List ℕ → List (List (IndexedPacket α)) × List ℕ
  | [] => ([], [])
  | len :: rest =>
    if len * (SIZE + 1) ≤ rest.length then
      let bucket := parseBucket SIZE fromB len rest
      let r := deserialize_queue SIZE fromB (rest.drop (len * (SIZE + 1)))
      (bucket :: r.1, r.2)
    else ([], len :: rest)
termination_by bytes => bytes.length
decreasing_by simp [List.length_drop]; omega

/-! ## Spatial grid (src/solver/src/utils.rs) -/

/-- CELL_MAX = 4. -/
def CELL_MAX : ℕ := 4

/-- GridCell::push: append only while fewer than CELL_MAX entries. -/
def cellPush (cell : List ℕ) (elem : ℕ) : List ℕ :=
  if cell.length < CELL_MAX then cell ++ [elem] else cell

/-- Grid: a width x height array of fixed-capacity cells, stored row-major by
column (index i * height + j). -/
structure Grid where
  width : ℕ
  height : ℕ
  cells : List (List ℕ)
deriving DecidableEq, Repr

/-- Grid::new. -/
def Grid.new (width height : ℕ) : Grid :=
  { width := width, height := height, cells := List.replicate (width * height) [] }

/-- Grid indexing (the Index impl). -/
def Grid.get (g : Grid) (c : ℕ × ℕ) : List ℕ :=
  g.cells.getD (c.1 * g.height + c.2) []

/-- Grid::push. -/
def Grid.push (g : Grid) (c : ℕ × ℕ) (value : ℕ) : Grid :=
  { g with cells := g.cells.set (c.1 * g.height + c.2) (cellPush (g.get c) value) }

/-- Grid::clear: every cell emptied (len = 0). -/
def Grid.clear (g : Grid) : Grid :=
  { g with cells := g.cells.map (fun _ => []) }

/-! ## Solver (src/solver/src/lib.rs) -/

/-- PARTICLE_RADIUS = 0.5. -/
def PARTICLE_RADIUS : ℚ := 1 / 2

/-- A connection (i, j, Link). -/
abbrev Connection : Type := ℕ × ℕ × Link

instance : Inhabited Connection := ⟨(0, 0, Link.force 0)⟩

/-- Rust `as usize` on an f32 value: truncate toward zero, saturating at 0
for negative values; on the rationals of this model that is floor . toNat. -/
def usizeOf (q : ℚ) : ℕ := q.floor.toNat

/-- Solver state. -/
structure Solver where
  constraint : Constraint
  particles : List Particle
  connections : List Connection
  cell_size : ℚ
  special : List ℕ
  grid : Grid

/-- Solver::new: cell size is one particle diameter; the grid gets a one-cell
apron (width/height from the bounds, + 3); special starts empty. -/
def Solver.new (constraint : Constraint) (particles : List Particle)
    (connections : List Connection) : Solver :=
  let cell_size := 2 * PARTICLE_RADIUS
  let bounds := constraint.bounds
  let width := usizeOf ((bounds.2.x - bounds.1.x) / cell_size) + 3
  let height := usizeOf ((bounds.2.y - bounds.1.y) / cell_size) + 3
  { constraint := constraint
    particles := particles
    connections := connections
    cell_size := cell_size
    grid := Grid.new width height
    special := [] }

/-- Solver::get_cell: clamp the position into the apron. -/
def Solver.get_cell (s : Solver) (pos : Q2) : ℕ × ℕ :=
  let bounds := s.constraint.bounds.1
  (min (usizeOf (max ((pos.x - bounds.x) / s.cell_size) 0) + 1) (s.grid.width - 1),
   min (usizeOf (max ((pos.y - bounds.y) / s.cell_size) 0) + 1) (s.grid.height - 1))

/-- Solver::populate_grid: clear all cells, then push every particle index
into the cell of its current position. -/
def Solver.populate_grid (s : Solver) : Solver :=
  { s with
      grid := s.particles.enum.foldl
        (fun g ip => g.push (s.get_cell ip.2.pos) ip.1) s.grid.clear }

/-- Solver::resolve_interaction: the per-kind effect of p1 (at index i) acting
on p2 (at index j). -/
def Solver.resolve_interaction (F : FloatFuns) (p1 p2 : Particle) (_i j : ℕ) :
    Particle × Particle :=
  match p1.kind with
  | .motor acc =>
    let v := (p2.pos - p1.pos).normalize_or_zero F
    let acceleration := acc • v.perp
    (p1.accelerate ((-acceleration).divScalar 2), p2.accelerate acceleration)
  | .impulse imp =>
    if imp < 0 then (p1, p2)
    else
      let v := (p2.pos - p1.pos).normalize_or_zero F
      let p2a := p2.set_velocity (IMPULSE_VELOCITY • v)
      let p1a := { p1 with
                    kind := .impulse (imp - IMPULSE_VELOCITY)
                    color := p1.color * ⟨19/20, 19/20, 19/20, 1⟩ }
      (p1a, p2a)
  | .sticky state con =>
    if 0 < state ∧ con = Option.none then
      ({ p1 with kind := .sticky (state - 1) (some j) }, p2)
    else (p1, p2)
  | _ => (p1, p2)

/-- Solver::resolve_collision: guard on kind compatibility and on the overlap
window (length below the radius sum but above the 0.03 degeneracy guard),
project the pair apart inversely by mass keeping acc, then dispatch the
interaction from each non-None kind onto the other. -/
def Solver.resolve_collision (F : FloatFuns) (p1 p2 : Particle) (i j : ℕ) :
    Particle × Particle :=
  if !(p1.kind.can_collide_with p2.kind) then (p1, p2)
  else
    let v := p1.pos - p2.pos
    let length := v.length F
    if length < p1.radius + p2.radius ∧ 3 / 100 < length then
      let overlap := p1.radius + p2.radius - length
      let c1 := p2.mass / (p1.mass + p2.mass)
      let c2 := 1 - c1
      let v2 := overlap • (v.divScalar length)
      let p1a := p1.set_position (p1.pos + c1 • v2) true
      let p2a := p2.set_position (p2.pos - c2 • v2) true
      let r1 := if !p1a.kind.isNone then Solver.resolve_interaction F p1a p2a i j
                else (p1a, p2a)
      let r2 := if !r1.2.kind.isNone then Solver.resolve_interaction F r1.2 r1.1 j i
                else (r1.2, r1.1)
      (r2.2, r2.1)
    else (p1, p2)

/-- The nine neighbor offsets, in the dc-outer dr-inner order of the scan. -/
def cellDeltas : List (ℤ × ℤ) :=
  [(-1, -1), (-1, 0), (-1, 1), (0, -1), (0, 0), (0, 1), (1, -1), (1, 0), (1, 1)]

/-- The ordered (i, j) visits of the broad phase: the two color groups (cols
mod 4 in {1,2}, then in {3,0}) in order, columns ascending inside each range,
rows 1..height-1, each occupant against every occupant of the nine adjacent
cells, skipping i = j. The parallel dispatch touches disjoint particles per
group, so its effect equals this sequential order. -/
def Solver.collision_pairs (g : Grid) : List (ℕ × ℕ) :=
  let colsOf : ℕ → List ℕ := fun r =>
    (((List.range (g.width - 1)).filter (fun i => 1 ≤ i ∧ i % 4 = r)).map
      (fun i => List.range' i (min (i + 2) (g.width - 1) - i))).flatten
  let groupCols := colsOf 1 ++ colsOf 3
  (groupCols.map (fun col =>
    ((List.range' 1 (g.height - 1 - 1)).map (fun row =>
      ((g.get (col, row)).map (fun i =>
        (cellDeltas.map (fun d =>
          ((g.get (((col : ℤ) + d.1).toNat, ((row : ℤ) + d.2).toNat)).filter
            (fun j => j ≠ i)).map (fun j => (i, j)))).flatten)).flatten)).flatten)).flatten

/-- One pairwise visit: read both particles, resolve, write both back. -/
def Solver.apply_collision (F : FloatFuns) (ps : List Particle) (ij : ℕ × ℕ) :
    List Particle :=
  let p1 := ps.getD ij.1 default
  let p2 := ps.getD ij.2 default
  let r := Solver.resolve_collision F p1 p2 ij.1 ij.2
  (ps.set ij.1 r.1).set ij.2 r.2

/-- Solver::resolve_collisions, sequentialized in the deterministic visit
order (the color groups make the parallel version equivalent). -/
def Solver.resolve_collisions (F : FloatFuns) (s : Solver) : Solver :=
  { s with
      particles := (Solver.collision_pairs s.grid).foldl
        (Solver.apply_collision F) s.particles }

/-- Solver::resolve_connection on one link. -/
def Solver.resolve_connection (F : FloatFuns) (p1 p2 : Particle) (link : Link) :
    Particle × Particle × Link :=
  match link with
  | .force f =>
    let v := (p2.pos - p1.pos).normalize_or_zero F
    (p1.accelerate (f • v), p2.accelerate (-(f • v)), .force f)
  | .rigid length dur ela =>
    if dur < 0 then (p1, p2, link)
    else
      let v := p1.pos - p2.pos
      let overlap := (length - v.length F) / 2
      let v2 := overlap • (v.normalize_or_zero F)
      let p1a := p1.set_position (p1.pos + v2) true
      let p2a := p2.set_position (p2.pos - v2) true
      let max_length := ela * length / 100
      let dur2 := if max_length < 2 * |overlap| then dur - (2 * |overlap| / max_length - 1)
                  else dur
      (p1a, p2a, .rigid length dur2 ela)

/-- One step of Solver::resolve_connections: normalize the pair to
(min, max), resolve, write both particles and the updated link back. When
the two endpoints coincide the source's split_at_mut would panic; the model
leaves such a state unchanged (the data model forbids i = j). -/
def resolveConnStep (F : FloatFuns) (ps : List Particle) (c : Connection) :
    List Particle × Connection :=
  let a := min c.1 c.2.1
  let b := max c.1 c.2.1
  if a = b then (ps, c)
  else
    let pa := ps.getD a default
    let pb := ps.getD b default
    let r := Solver.resolve_connection F pa pb c.2.2
    ((ps.set a r.1).set b r.2.1, (c.1, c.2.1, r.2.2))

/-- The fold step of resolve_connections: thread the particle array, rebuild
the connection list in order. -/
def connStep (F : FloatFuns) (st : List Particle × List Connection)
    (c : Connection) : List Particle × List Connection :=
  let r := resolveConnStep F st.1 c
  (r.1, st.2 ++ [r.2])

/-- Solver::resolve_connections: sequential, in insertion order. -/
def Solver.resolve_connections (F : FloatFuns) (s : Solver) : Solver :=
  let res := s.connections.foldl (connStep F) (s.particles, [])
  { s with particles := res.1, connections := res.2 }

/-- One special-sweep visit: a sticky particle with a pending partner appends
a Rigid{length 1, durability 1, elasticity 5} connection to the partner and
clears the pending index. -/
def specialStep (s : Solver) (i : ℕ) : Solver :=
  let p := s.particles.getD i default
  match p.kind with
  | .sticky r (some j) =>
    { s with
        connections := s.connections ++ [(i, j, Link.rigid 1 1 5)]
        particles := s.particles.set i { p with kind := .sticky r Option.none } }
  | _ => s

/-- Solver::resolve_special: the special sweep over every registered index. -/
def Solver.resolve_special (s : Solver) : Solver :=
  s.special.foldl specialStep s

/-- Solver::solve: populate the grid, resolve collisions, connections and
specials, then per particle apply gravity, integrate and project onto the
constraint. -/
def Solver.solve (F : FloatFuns) (s : Solver) (dt : ℚ) : Solver :=
  let s1 := (s.populate_grid).resolve_collisions F |>.resolve_connections F
    |>.resolve_special
  { s1 with
      particles := s1.particles.map
        (fun p => ((p.apply_gravity).update dt).apply_constraint s1.constraint) }

/-- Solver::size. -/
def Solver.size (s : Solver) : ℕ := s.particles.length

/-- Solver::add_particle: append, and register the index when special. -/
def Solver.add_particle (s : Solver) (particle : Particle) : Solver :=
  let ind := s.particles.length
  let s1 := { s with particles := s.particles ++ [particle] }
  if particle.is_special then { s1 with special := s1.special ++ [ind] } else s1

/-- Solver::add_rib. -/
def Solver.add_rib (s : Solver) (i j : ℕ) (length durability elasticity : ℚ) :
    Solver :=
  { s with connections := s.connections ++ [(i, j, Link.rigid length durability elasticity)] }

/-- Solver::add_spring. -/
def Solver.add_spring (s : Solver) (i j : ℕ) (force : ℚ) : Solver :=
  { s with connections := s.connections ++ [(i, j, Link.force force)] }

/-! ## Controller (src/smog/src/controller.rs, src/smog/src/controller/model.rs)

Here GamePacket is consumed with its decoded numeric payloads, so f32 fields
are exact rationals (GamePacketQ below is the same enum as GamePacket, seen
after decoding instead of at the byte level). -/

/-- GamePacket with decoded (rational) payloads, as the controller consumes
it. -/
inductive GamePacketQ where
  | none
  | spawn (pos : Q2)
  | motor (ind : ℕ) (acc : ℚ)
  | muzzle (pos : Q2)
  | resetMuzzle
  | fire (bullet : ℕ)
  | thrust (left right : ℚ)
  | dash (coeff : ℚ)
deriving DecidableEq, Repr

/-- IndexedGamePacket at the controller level. -/
abbrev IndexedGamePacketQ : Type := IndexedPacket GamePacketQ

/-- TANK_HP (controller/model.rs). -/
def TANK_HP : ℚ := 7

/-- PISTOL_HP (controller/model.rs). -/
def PISTOL_HP : ℚ := 7

/-- TickTimer. -/
structure TickTimer where
  tick : ℤ
  last : ℤ
deriving DecidableEq, Repr

instance : Inhabited TickTimer := ⟨⟨0, 0⟩⟩

/-- TickTimer::update. -/
def TickTimer.update (t : TickTimer) : TickTimer := { t with tick := t.tick - 1 }

/-- PlayerModel: index ranges and handles of one player's stamped tank. -/
structure PlayerModel where
  range : ℕ × ℕ
  left_motors : List ℕ
  right_motors : List ℕ
  pistols : List ℕ
  center : ℕ
  muzzle : ℕ
  center_connection : ℕ
deriving DecidableEq, Repr

instance : Inhabited PlayerModel := ⟨⟨(0, 0), [], [], [], 0, 0, 0⟩⟩

/-- Player. -/
structure Player where
  id : ℕ
  team : ℕ
  model : PlayerModel
  gear : ℕ
  projectile : ℕ
  reload_timer : TickTimer
  dash_timer : TickTimer
  thrust : ℚ × ℚ
  aim : Option Q2
deriving DecidableEq, Repr

instance : Inhabited Player :=
  ⟨⟨0, 0, default, 0, 0, default, default, (0, 0), Option.none⟩⟩

/-- Controller. -/
structure Controller where
  tick : ℕ
  player : Player
  players : List Player

/-- Controller::player_alive: the center connection still has positive
durability. -/
def player_alive (player : Player) (s : Solver) : Bool :=
  decide (0 < (s.connections.getD player.model.center_connection default).2.2.durability)

/-- get_color: HP-interpolated HSL color (through the interpreted hsl). -/
def get_color (F : FloatFuns) (a : ℚ) : Q4 :=
  let a2 := max a 0
  let c := F.hsl (a2 * 120) 1 (if a2 = 0 then 0 else 7 / 10)
  ⟨c.1, c.2.1, c.2.2, 1⟩

/-- Controller::update_timers: advance the tick, update the local player's
timers. -/
def Controller.update_timers (c : Controller) : Controller :=
  { c with
      tick := c.tick + 1
      player := { c.player with
                    reload_timer := c.player.reload_timer.update
                    dash_timer := c.player.dash_timer.update } }

/-- Controller::update_player_colors: recolor every player's center particle
by tank HP and every pistol base by pistol HP. -/
def Controller.update_player_colors (F : FloatFuns) (c : Controller) (s : Solver) :
    Solver :=
  c.players.foldl (fun s player =>
    let hp := (s.connections.getD player.model.center_connection default).2.2.durability
      / TANK_HP
    let center := s.particles.getD player.model.center default
    let ps0 := s.particles.set player.model.center { center with color := get_color F hp }
    let s1 := { s with particles := ps0 }
    player.model.pistols.foldl (fun s pistol =>
      let con := s.connections.getD pistol default
      let base := s.particles.getD con.1 default
      let hp2 := con.2.2.durability / PISTOL_HP
      let ps1 := s.particles.set con.1 { base with color := get_color F hp2 }
      { s with particles := ps1 }) s1) s

/-- Controller::update_players: every 8 ticks apply thrust to the outer
motors and steer the pistol links toward the aim point. -/
def Controller.update_players (F : FloatFuns) (c : Controller) (s : Solver) :
    Solver :=
  c.players.foldl (fun s player =>
    if !(player_alive player s) then s
    else if c.tick % 8 ≠ 0 then s
    else
      let left_motor := player.model.right_motors.headD 0
      let right_motor := player.model.right_motors.getLastD 0
      let center := s.particles.getD player.model.center default
      let center_base_i := (s.connections.getD player.model.center_connection default).1
      let center_base := s.particles.getD center_base_i default
      let direction_up := center.pos - center_base.pos
      let s1 :=
        if player.thrust.1 ≠ 0 ∨ player.thrust.2 ≠ 0 then
          let psL := s.particles.set left_motor
            ((s.particles.getD left_motor default).set_velocity
              (player.thrust.1 • direction_up))
          let psR := psL.set right_motor
            ((psL.getD right_motor default).set_velocity
              (player.thrust.2 • direction_up))
          { s with particles := psR }
        else s
      match player.aim with
      | Option.none => s1
      | some aimPos =>
        let desired0 := (6 : ℚ) • ((aimPos - center.pos).normalize F) + center.pos
        let desired1 :=
          if (desired0 - center.pos).dot direction_up < -(1 / 10) then
            (signumQ (direction_up.perp_dot (desired0 - center.pos)) * 6) •
              direction_up.perp + center.pos
          else desired0
        let muzzle := s1.particles.getD player.model.muzzle default
        let angle0 := (muzzle.pos - center.pos).angle_between F (desired1 - center.pos)
        let angle := max (min angle0 (1 / 25)) (-(1 / 25))
        let desired2 := (6 : ℚ) •
          (((muzzle.pos - center.pos).rotate (Q2.from_angle F angle)).normalize F)
          + center.pos
        player.model.pistols.foldl (fun s pistol =>
          let con := s.connections.getD pistol default
          let base := s.particles.getD con.1 default
          let cs1 := s.connections.set pistol
            (con.1, con.2.1, con.2.2.with_length (desired2.distance F base.pos))
          { s with connections := cs1 }) s1) s

/-- The Fire branch of handle_packet for a resolved projectile. -/
def fireProjectile (F : FloatFuns) (player : Player) (s : Solver)
    (projectile : Particle) (force : ℚ) : Solver :=
  let center := s.particles.getD player.model.center default
  let muzzle_end := s.particles.getD player.model.muzzle default
  let muzzle_dir := (muzzle_end.pos - center.pos).normalize F
  let bullet_pos := center.pos + (10 : ℚ) • muzzle_dir
  let s1 := s.add_particle
    ((projectile.with_position bullet_pos).with_velocity (force • muzzle_dir))
  let imp := force * (muzzle_dir.length F) * projectile.mass
  let muzzle_end2 := s1.particles.getD player.model.muzzle default
  let recoil := imp / muzzle_end2.mass / 100
  { s1 with particles := s1.particles.enum.map (fun ip =>
      if player.model.range.1 ≤ ip.1 ∧ ip.1 < player.model.range.2 then
        ip.2.add_velocity (-(recoil • muzzle_dir))
      else ip.2) }

/-- Controller::handle_packet: look the sender up in the players vector
(silently dropping unknown senders), require the sender alive, then apply
the packet's authoritative effect. -/
def Controller.handle_packet (F : FloatFuns) (c : Controller) (s : Solver)
    (packet : IndexedGamePacketQ) : Controller × Solver :=
  match c.players.findIdx? (fun p => p.id == packet.id) with
  | Option.none => (c, s)
  | some k =>
    let player := c.players.getD k default
    if !(player_alive player s) then (c, s)
    else
      let center := s.particles.getD player.model.center default
      match packet.contents with
      | .motor ind acc =>
        if (s.particles.get? ind).elim false (fun p => p.is_motor) then
          let ps := s.particles.set ind
            ((s.particles.getD ind default).set_kind (.motor acc))
          (c, { s with particles := ps })
        else (c, s)
      | .spawn pos =>
        (c, s.add_particle ((GROUND.with_position pos).with_velocity ⟨0, -(1/2)⟩))
      | .dash coeff =>
        let vel := (coeff • center.velocity).clamp_length F (1/20) (1/10)
        (c, { s with particles := s.particles.enum.map (fun ip =>
          if player.model.range.1 ≤ ip.1 ∧ ip.1 < player.model.range.2 then
            ip.2.set_velocity (coeff • vel)
          else ip.2) })
      | .thrust l r =>
        ({ c with players := c.players.set k { player with thrust := (l, r) } }, s)
      | .muzzle pos =>
        ({ c with players := c.players.set k { player with aim := some pos } }, s)
      | .resetMuzzle =>
        ({ c with players := c.players.set k { player with aim := Option.none } }, s)
      | .fire bullet =>
        match bullet with
        | 0 => (c, fireProjectile F player s PROJECTILE_HEAVY (3/5))
        | 1 => (c, fireProjectile F player s PROJECTILE_IMPULSE (1/4))
        | 2 => (c, fireProjectile F player s PROJECTILE_STICKY (1/10))
        | _ => (c, s)
      | .none => (c, s)

/-- Controller::handle_packets: timers, colors, continuous per-player
effects, then the batch in order. -/
def Controller.handle_packets (F : FloatFuns) (c : Controller) (s : Solver)
    (packets : List IndexedGamePacketQ) : Controller × Solver :=
  let c1 := c.update_timers
  let s1 := Controller.update_player_colors F c1 s
  let s2 := Controller.update_players F c1 s1
  packets.foldl (fun cs pkt => Controller.handle_packet F cs.1 cs.2 pkt) (c1, s2)

/-! ## Lock-step tick composition (client loop, spec sec. 4.11) -/

/-- One peer-visible operation: apply a packet bucket, or advance physics. -/
inductive Op where
  | handle (packets : List IndexedGamePacketQ)
  | step (dt : ℚ)

/-- Apply one operation to a controller/solver pair. -/
def applyOp (F : FloatFuns) (cs : Controller × Solver) : Op → Controller × Solver
  | .handle packets => Controller.handle_packets F cs.1 cs.2 packets
  | .step dt => (cs.1, Solver.solve F cs.2 dt)

/-- Run an ordered sequence of operations. -/
def runOps (F : FloatFuns) (cs : Controller × Solver) (ops : List Op) :
    Controller × Solver :=
  ops.foldl (applyOp F) cs

/-! ## Concrete states exercised by witnesses and counterexamples -/

/-- A sticky particle (remaining 1, no pending partner) at (0.35, 0.35). -/
def stickyTest : Particle :=
  { Particle.null.with_position ⟨7/20, 7/20⟩ with kind := .sticky 1 Option.none }

/-- A ground particle at (0.65, 0.35), overlapping the sticky one. -/
def groundTest : Particle := GROUND.with_position ⟨13/20, 7/20⟩

/-- The sticky scenario built through add_particle, which registers the
sticky index in the special list. -/
def stickySolver : Solver :=
  ((Solver.new (.box ⟨0, 0⟩ ⟨2, 2⟩) [] []).add_particle stickyTest).add_particle
    groundTest

/-- The same two particles handed to Solver::new directly: the constructor
does not scan them, so special stays empty. -/
def stickySolverNew : Solver :=
  Solver.new (.box ⟨0, 0⟩ ⟨2, 2⟩) [stickyTest, groundTest] []

/-- A two-particle player model: particles 0..2, center 0, muzzle 1, center
connection 0. -/
def modelTest : PlayerModel where
  range := (0, 2)
  left_motors := []
  right_motors := []
  pistols := []
  center := 0
  muzzle := 1
  center_connection := 0

/-- Player 0 owning modelTest. -/
def playerTest : Player where
  id := 0
  team := 0
  model := modelTest
  gear := 0
  projectile := 0
  reload_timer := default
  dash_timer := default
  thrust := (0, 0)
  aim := Option.none

/-- Center particle with velocity (1, 0) (pos (1,0), pos_old (0,0)). -/
def centerTest : Particle := { Particle.null with pos := ⟨1, 0⟩ }

/-- Solver for the controller scenarios: two particles, one healthy rigid
center connection. -/
def ctrlSolver : Solver :=
  Solver.new (.box ⟨0, 0⟩ ⟨10, 10⟩)
    [centerTest, Particle.null.with_position ⟨5, 5⟩]
    [(0, 1, Link.rigid 1 1 5)]

/-- Controller with the single player playerTest. -/
def ctrlTest : Controller := { tick := 0, player := playerTest, players := [playerTest] }

/-- A tiny fixed-size packet for exercising the generic batch codec:
two payload bytes (SIZE = 2). -/
def pairToB (c : ℕ × ℕ) : List ℕ := [c.1, c.2]

/-- Decoder for the two-byte payload. -/
def pairFromB (l : List ℕ) : ℕ × ℕ := (l.headD 0, (l.drop 1).headD 0)

/-- A three-bucket batch for the codec witnesses. -/
def batchTest : List (List (IndexedPacket (ℕ × ℕ))) :=
  [[⟨1, (10, 20)⟩, ⟨2, (30, 40)⟩], [], [⟨3, (50, 60)⟩]]

/-! # Theorems -/

/-! ## Vector component lemmas -/

@[simp] theorem Q2.add_x (a b : Q2) : (a + b).x = a.x + b.x := rfl

@[simp] theorem Q2.add_y (a b : Q2) : (a + b).y = a.y + b.y := rfl

@[simp] theorem Q2.sub_x (a b : Q2) : (a - b).x = a.x - b.x := rfl

@[simp] theorem Q2.sub_y (a b : Q2) : (a - b).y = a.y - b.y := rfl

@[simp] theorem Q2.neg_x (a : Q2) : (-a).x = -a.x := rfl

@[simp] theorem Q2.neg_y (a : Q2) : (-a).y = -a.y := rfl

@[simp] theorem Q2.smul_x (c : ℚ) (a : Q2) : (c • a).x = c * a.x := rfl

@[simp] theorem Q2.smul_y (c : ℚ) (a : Q2) : (c • a).y = c * a.y := rfl

theorem Q2.ext_xy {a b : Q2} (hx : a.x = b.x) (hy : a.y = b.y) : a = b := by
  cases a
  cases b
  simp_all

/-! ## List update helpers -/

theorem getD_set {α : Type} (l : List α) (i j : ℕ) (v d : α) :
    (l.set i v).getD j d =
      if i = j ∧ i < l.length then v else l.getD j d := by
  rcases Decidable.em (i = j) with h | h
  · subst h
    rcases Nat.lt_or_ge i l.length with hl | hl
    · simp [List.getD_eq_getElem?_getD, List.getElem?_set, hl]
    · simp [List.getD_eq_getElem?_getD, List.getElem?_set, Nat.not_lt.mpr hl,
        List.getElem?_eq_none hl]
  · simp [List.getD_eq_getElem?_getD, List.getElem?_set, h]

theorem getD_map {α β : Type} (f : α → β) (l : List α) (i : ℕ) (d : α) :
    (l.map f).getD i (f d) = f (l.getD i d) := by
  rcases Nat.lt_or_ge i l.length with hl | hl
  · simp [List.getD_eq_getElem?_getD, List.getElem?_map,
      List.getElem?_eq_getElem hl]
  · simp [List.getD_eq_getElem?_getD, List.getElem?_map,
      List.getElem?_eq_none hl, List.getElem?_eq_none (le_trans hl (Nat.le_refl _))]

theorem set_getD_self {α : Type} (l : List α) (i : ℕ) (d : α) :
    l.set i (l.getD i d) = l := by
  rcases Nat.lt_or_ge i l.length with hl | hl
  · apply List.ext_getElem?
    intro j
    rw [List.getElem?_set]
    rcases Decidable.em (i = j) with h | h
    · subst h
      simp [hl, List.getD_eq_getElem?_getD, List.getElem?_eq_getElem hl]
    · simp [h]
  · exact List.set_eq_of_length_le hl

theorem foldl_invariant {α β : Type} (f : β → α → β) (P : β → Prop)
    (l : List α) (b : β) (hb : P b) (hf : ∀ x a, P x → P (f x a)) :
    P (l.foldl f b) := by
  induction l generalizing b with
  | nil => exact hb
  | cons a l ih => exact ih _ (hf _ _ hb)

/-! ## Particle operation projections -/

@[simp] theorem Particle.radius_set_position (p : Particle) (pos : Q2) (b : Bool) :
    (p.set_position pos b).radius = p.radius := rfl

@[simp] theorem Particle.kind_set_position (p : Particle) (pos : Q2) (b : Bool) :
    (p.set_position pos b).kind = p.kind := rfl

@[simp] theorem Particle.radius_set_velocity (p : Particle) (v : Q2) :
    (p.set_velocity v).radius = p.radius := rfl

@[simp] theorem Particle.kind_set_velocity (p : Particle) (v : Q2) :
    (p.set_velocity v).kind = p.kind := rfl

@[simp] theorem Particle.radius_accelerate (p : Particle) (a : Q2) :
    (p.accelerate a).radius = p.radius := rfl

@[simp] theorem Particle.kind_accelerate (p : Particle) (a : Q2) :
    (p.accelerate a).kind = p.kind := rfl

@[simp] theorem Particle.radius_apply_gravity (p : Particle) :
    p.apply_gravity.radius = p.radius := rfl

@[simp] theorem Particle.kind_apply_gravity (p : Particle) :
    p.apply_gravity.kind = p.kind := rfl

@[simp] theorem Particle.radius_update (p : Particle) (dt : ℚ) :
    (p.update dt).radius = p.radius := rfl

@[simp] theorem Particle.kind_update (p : Particle) (dt : ℚ) :
    (p.update dt).kind = p.kind := rfl

theorem Particle.radius_apply_constraint (p : Particle) (c : Constraint) :
    (p.apply_constraint c).radius = p.radius := by
  unfold Particle.apply_constraint
  cases c
  dsimp only
  split_ifs <;> rfl

theorem Particle.kind_apply_constraint (p : Particle) (c : Constraint) :
    (p.apply_constraint c).kind = p.kind := by
  unfold Particle.apply_constraint
  cases c
  dsimp only
  split_ifs <;> rfl

/-- Setting a velocity makes the implicit velocity (pos - pos_old) that
velocity. -/
theorem Particle.velocity_set_velocity (p : Particle) (v : Q2) :
    (p.set_velocity v).velocity = v := by
  unfold Particle.set_velocity Particle.velocity
  refine Q2.ext_xy ?_ ?_ <;> simp

/-! ## Interaction and collision frame lemmas -/

theorem resolve_interaction_snd_kind (F : FloatFuns) (p q : Particle) (i j : ℕ) :
    (Solver.resolve_interaction F p q i j).2.kind = q.kind := by
  obtain ⟨rad, m, pos, po, ac, tex, kind, col⟩ := p
  cases kind <;> simp [Solver.resolve_interaction] <;> split_ifs <;> simp

theorem resolve_interaction_snd_radius (F : FloatFuns) (p q : Particle) (i j : ℕ) :
    (Solver.resolve_interaction F p q i j).2.radius = q.radius := by
  obtain ⟨rad, m, pos, po, ac, tex, kind, col⟩ := p
  cases kind <;> simp [Solver.resolve_interaction] <;> split_ifs <;> simp

theorem resolve_interaction_fst_radius (F : FloatFuns) (p q : Particle) (i j : ℕ) :
    (Solver.resolve_interaction F p q i j).1.radius = p.radius := by
  obtain ⟨rad, m, pos, po, ac, tex, kind, col⟩ := p
  cases kind <;> simp [Solver.resolve_interaction] <;> split_ifs <;> simp

/-- A sticky particle whose remaining count is 0 acts as a no-op in
resolve_interaction. -/
theorem resolve_interaction_sticky_zero (F : FloatFuns) (p q : Particle)
    (i j : ℕ) (c : Option ℕ) (hk : p.kind = .sticky 0 c) :
    Solver.resolve_interaction F p q i j = (p, q) := by
  obtain ⟨rad, m, pos, po, ac, tex, kind, col⟩ := p
  change kind = Kind.sticky 0 c at hk
  subst hk
  simp [Solver.resolve_interaction]

theorem resolve_collision_radius (F : FloatFuns) (p1 p2 : Particle) (i j : ℕ) :
    (Solver.resolve_collision F p1 p2 i j).1.radius = p1.radius ∧
    (Solver.resolve_collision F p1 p2 i j).2.radius = p2.radius := by
  unfold Solver.resolve_collision
  dsimp only
  split_ifs <;>
    simp [resolve_interaction_fst_radius, resolve_interaction_snd_radius]

theorem resolve_collision_kind_sticky_zero_fst (F : FloatFuns) (p1 p2 : Particle)
    (i j : ℕ) (c : Option ℕ) (hk : p1.kind = .sticky 0 c) :
    (Solver.resolve_collision F p1 p2 i j).1.kind = p1.kind := by
  unfold Solver.resolve_collision
  dsimp only
  split_ifs <;>
    simp_all [resolve_interaction_sticky_zero, resolve_interaction_snd_kind, hk]

theorem resolve_collision_kind_sticky_zero_snd (F : FloatFuns) (p1 p2 : Particle)
    (i j : ℕ) (c : Option ℕ) (hk : p2.kind = .sticky 0 c) :
    (Solver.resolve_collision F p1 p2 i j).2.kind = p2.kind := by
  unfold Solver.resolve_collision
  dsimp only
  split_ifs <;>
    simp_all [resolve_interaction_sticky_zero, resolve_interaction_snd_kind, hk]

/-! ## Collision phase frame lemmas -/

theorem apply_collision_length (F : FloatFuns) (ps : List Particle) (ij : ℕ × ℕ) :
    (Solver.apply_collision F ps ij).length = ps.length := by
  simp [Solver.apply_collision]

theorem apply_collision_radius_getD (F : FloatFuns) (ps : List Particle)
    (ij : ℕ × ℕ) (m : ℕ) :
    ((Solver.apply_collision F ps ij).getD m default).radius
      = (ps.getD m default).radius := by
  unfold Solver.apply_collision
  dsimp only
  rw [getD_set, getD_set]
  split_ifs with h1 h2
  · obtain ⟨he, _⟩ := h1
    subst he
    exact (resolve_collision_radius F _ _ _ _).2
  · obtain ⟨he, _⟩ := h2
    subst he
    exact (resolve_collision_radius F _ _ _ _).1
  · rfl

theorem apply_collision_kind_sticky_zero (F : FloatFuns) (ps : List Particle)
    (ij : ℕ × ℕ) (m : ℕ) (c : Option ℕ)
    (h : (ps.getD m default).kind = .sticky 0 c) :
    ((Solver.apply_collision F ps ij).getD m default).kind = .sticky 0 c := by
  unfold Solver.apply_collision
  dsimp only
  rw [getD_set, getD_set]
  split_ifs with h1 h2
  · obtain ⟨he, _⟩ := h1
    subst he
    rw [resolve_collision_kind_sticky_zero_snd F _ _ _ _ c h]
    exact h
  · obtain ⟨he, _⟩ := h2
    subst he
    rw [resolve_collision_kind_sticky_zero_fst F _ _ _ _ c h]
    exact h
  · exact h

theorem collisions_fold_length (F : FloatFuns) (pairs : List (ℕ × ℕ))
    (ps : List Particle) :
    (pairs.foldl (Solver.apply_collision F) ps).length = ps.length :=
  foldl_invariant _ (fun x => x.length = ps.length) pairs ps rfl
    (fun x a hx => by
      show (Solver.apply_collision F x a).length = ps.length
      rw [apply_collision_length]; exact hx)

theorem collisions_fold_radius (F : FloatFuns) (pairs : List (ℕ × ℕ))
    (ps : List Particle) (m : ℕ) :
    ((pairs.foldl (Solver.apply_collision F) ps).getD m default).radius
      = (ps.getD m default).radius :=
  foldl_invariant _
    (fun x => (x.getD m default).radius = (ps.getD m default).radius) pairs ps rfl
    (fun x a hx => by
      show ((Solver.apply_collision F x a).getD m default).radius = _
      rw [apply_collision_radius_getD]; exact hx)

theorem collisions_fold_kind_sticky_zero (F : FloatFuns) (pairs : List (ℕ × ℕ))
    (ps : List Particle) (m : ℕ) (c : Option ℕ)
    (h : (ps.getD m default).kind = .sticky 0 c) :
    ((pairs.foldl (Solver.apply_collision F) ps).getD m default).kind
      = .sticky 0 c :=
  foldl_invariant _ (fun x => (x.getD m default).kind = .sticky 0 c) pairs ps h
    (fun x a hx => apply_collision_kind_sticky_zero F x a m c hx)

/-! ## Connection phase frame lemmas -/

theorem resolve_connection_radius (F : FloatFuns) (p q : Particle) (l : Link) :
    (Solver.resolve_connection F p q l).1.radius = p.radius ∧
    (Solver.resolve_connection F p q l).2.1.radius = q.radius := by
  cases l <;> simp [Solver.resolve_connection] <;> split_ifs <;> simp

theorem resolve_connection_kind (F : FloatFuns) (p q : Particle) (l : Link) :
    (Solver.resolve_connection F p q l).1.kind = p.kind ∧
    (Solver.resolve_connection F p q l).2.1.kind = q.kind := by
  cases l <;> simp [Solver.resolve_connection] <;> split_ifs <;> simp

theorem resolveConnStep_length (F : FloatFuns) (ps : List Particle)
    (c : Connection) : (resolveConnStep F ps c).1.length = ps.length := by
  unfold resolveConnStep
  dsimp only
  split_ifs
  · rfl
  · simp [List.length_set]

theorem resolveConnStep_radius_getD (F : FloatFuns) (ps : List Particle)
    (c : Connection) (m : ℕ) :
    ((resolveConnStep F ps c).1.getD m default).radius
      = (ps.getD m default).radius := by
  unfold resolveConnStep
  dsimp only
  split_ifs with hab
  · rfl
  · rw [getD_set, getD_set]
    split_ifs with h1 h2
    · obtain ⟨he, _⟩ := h1
      subst he
      exact (resolve_connection_radius F _ _ _).2
    · obtain ⟨he, _⟩ := h2
      subst he
      exact (resolve_connection_radius F _ _ _).1
    · rfl

theorem resolveConnStep_kind_getD (F : FloatFuns) (ps : List Particle)
    (c : Connection) (m : ℕ) :
    ((resolveConnStep F ps c).1.getD m default).kind
      = (ps.getD m default).kind := by
  unfold resolveConnStep
  dsimp only
  split_ifs with hab
  · rfl
  · rw [getD_set, getD_set]
    split_ifs with h1 h2
    · obtain ⟨he, _⟩ := h1
      subst he
      exact (resolve_connection_kind F _ _ _).2
    · obtain ⟨he, _⟩ := h2
      subst he
      exact (resolve_connection_kind F _ _ _).1
    · rfl

theorem conn_fold_particles_length (F : FloatFuns) (cs : List Connection)
    (ps : List Particle) (acc : List Connection) :
    ((cs.foldl (connStep F) (ps, acc)).1).length = ps.length :=
  foldl_invariant _ (fun st => st.1.length = ps.length) cs (ps, acc) rfl
    (fun st a hst => by
      show (resolveConnStep F st.1 a).1.length = ps.length
      rw [resolveConnStep_length]
      exact hst)

theorem conn_fold_particles_radius (F : FloatFuns) (cs : List Connection)
    (ps : List Particle) (acc : List Connection) (m : ℕ) :
    ((cs.foldl (connStep F) (ps, acc)).1.getD m default).radius
      = (ps.getD m default).radius :=
  foldl_invariant _
    (fun st => (st.1.getD m default).radius = (ps.getD m default).radius)
    cs (ps, acc) rfl
    (fun st a hst => by
      show ((resolveConnStep F st.1 a).1.getD m default).radius = _
      rw [resolveConnStep_radius_getD]
      exact hst)

theorem conn_fold_particles_kind (F : FloatFuns) (cs : List Connection)
    (ps : List Particle) (acc : List Connection) (m : ℕ) :
    ((cs.foldl (connStep F) (ps, acc)).1.getD m default).kind
      = (ps.getD m default).kind :=
  foldl_invariant _
    (fun st => (st.1.getD m default).kind = (ps.getD m default).kind)
    cs (ps, acc) rfl
    (fun st a hst => by
      show ((resolveConnStep F st.1 a).1.getD m default).kind = _
      rw [resolveConnStep_kind_getD]
      exact hst)

theorem conn_fold_connections_length (F : FloatFuns) (cs : List Connection) :
    ∀ (ps : List Particle) (acc : List Connection),
      ((cs.foldl (connStep F) (ps, acc)).2).length = acc.length + cs.length := by
  induction cs with
  | nil => intro ps acc; simp
  | cons c cs ih =>
    intro ps acc
    rw [List.foldl_cons]
    show ((cs.foldl (connStep F) ((resolveConnStep F ps c).1,
      acc ++ [(resolveConnStep F ps c).2])).2).length = _
    rw [ih]
    simp
    omega

theorem resolve_connections_connections_length (F : FloatFuns) (s : Solver) :
    (Solver.resolve_connections F s).connections.length = s.connections.length := by
  unfold Solver.resolve_connections
  dsimp only
  rw [conn_fold_connections_length]
  simp

theorem resolve_connections_particles_kind (F : FloatFuns) (s : Solver) (m : ℕ) :
    ((Solver.resolve_connections F s).particles.getD m default).kind
      = (s.particles.getD m default).kind := by
  unfold Solver.resolve_connections
  dsimp only
  exact conn_fold_particles_kind F s.connections s.particles [] m

theorem resolve_connections_particles_radius (F : FloatFuns) (s : Solver) (m : ℕ) :
    ((Solver.resolve_connections F s).particles.getD m default).radius
      = (s.particles.getD m default).radius := by
  unfold Solver.resolve_connections
  dsimp only
  exact conn_fold_particles_radius F s.connections s.particles [] m

theorem resolve_connections_particles_length (F : FloatFuns) (s : Solver) :
    (Solver.resolve_connections F s).particles.length = s.particles.length := by
  unfold Solver.resolve_connections
  dsimp only
  exact conn_fold_particles_length F s.connections s.particles []

/-! ## Special phase frame lemmas -/

theorem specialStep_constraint (s : Solver) (i : ℕ) :
    (specialStep s i).constraint = s.constraint := by
  unfold specialStep
  dsimp only
  split <;> rfl

theorem specialStep_special (s : Solver) (i : ℕ) :
    (specialStep s i).special = s.special := by
  unfold specialStep
  dsimp only
  split <;> rfl

theorem specialStep_particles_length (s : Solver) (i : ℕ) :
    (specialStep s i).particles.length = s.particles.length := by
  unfold specialStep
  dsimp only
  split
  · simp [List.length_set]
  · rfl

theorem specialStep_particles_radius (s : Solver) (i m : ℕ) :
    ((specialStep s i).particles.getD m default).radius
      = (s.particles.getD m default).radius := by
  unfold specialStep
  dsimp only
  split
  · rw [getD_set]
    split_ifs with h1
    · obtain ⟨he, _⟩ := h1
      subst he
      rfl
    · rfl
  · rfl

theorem resolve_special_frame (s : Solver) :
    (s.resolve_special).constraint = s.constraint ∧
    (s.resolve_special).particles.length = s.particles.length ∧
    (∀ m, ((s.resolve_special).particles.getD m default).radius
      = (s.particles.getD m default).radius) ∧
    (s.resolve_special).special = s.special := by
  unfold Solver.resolve_special
  refine foldl_invariant specialStep
    (fun x => x.constraint = s.constraint ∧
      x.particles.length = s.particles.length ∧
      (∀ m, (x.particles.getD m default).radius
        = (s.particles.getD m default).radius) ∧
      x.special = s.special)
    s.special s ⟨rfl, rfl, fun _ => rfl, rfl⟩ ?_
  intro x a hx
  obtain ⟨h1, h2, h3, h4⟩ := hx
  refine ⟨?_, ?_, ?_, ?_⟩
  · rw [specialStep_constraint]; exact h1
  · rw [specialStep_particles_length]; exact h2
  · intro m; rw [specialStep_particles_radius]; exact h3 m
  · rw [specialStep_special]; exact h4

/-! ## Solve-level frame lemmas -/

theorem solve_special (F : FloatFuns) (s : Solver) (dt : ℚ) :
    (Solver.solve F s dt).special = s.special := by
  show ((((s.populate_grid).resolve_collisions F).resolve_connections
    F).resolve_special).special = s.special
  rw [(resolve_special_frame _).2.2.2]
  rfl

theorem solve_particles_length (F : FloatFuns) (s : Solver) (dt : ℚ) :
    (Solver.solve F s dt).particles.length = s.particles.length := by
  show ((((((s.populate_grid).resolve_collisions F).resolve_connections
    F).resolve_special).particles.map _)).length = s.particles.length
  rw [List.length_map, (resolve_special_frame _).2.1,
    resolve_connections_particles_length]
  show (((Solver.collision_pairs _).foldl (Solver.apply_collision F)
    s.particles)).length = s.particles.length
  exact collisions_fold_length F _ _

/-- The integrate pass preserves each particle's kind (pointwise). -/
theorem integrate_kind_getD (dt : ℚ) (ps : List Particle) (m : ℕ)
    (c : Constraint) (hm : m < ps.length) :
    ((ps.map (fun p : Particle =>
      ((p.apply_gravity).update dt).apply_constraint c)).getD
      m default).kind = (ps.getD m default).kind := by
  rw [List.getD_eq_getElem?_getD, List.getElem?_map, List.getElem?_eq_getElem hm,
    List.getD_eq_getElem?_getD, List.getElem?_eq_getElem hm]
  simp [Particle.kind_apply_constraint]

/-- The kind of a particle after solve is its kind after the special sweep
(the integrate pass never writes kinds). -/
theorem solve_particles_kind (F : FloatFuns) (s : Solver) (dt : ℚ) (m : ℕ)
    (hm : m < ((((s.populate_grid).resolve_collisions F).resolve_connections
      F).resolve_special).particles.length) :
    ((Solver.solve F s dt).particles.getD m default).kind
      = (((((s.populate_grid).resolve_collisions F).resolve_connections
        F).resolve_special).particles.getD m default).kind :=
  integrate_kind_getD dt _ m _ hm

/-- When the only registered special index holds a spent sticky particle with
no pending partner, one solve appends no connection. -/
theorem solve_no_new_connection (F : FloatFuns) (s : Solver) (dt : ℚ) (i : ℕ)
    (hspecial : s.special = [i])
    (hk : (s.particles.getD i default).kind = .sticky 0 Option.none) :
    (Solver.solve F s dt).connections.length = s.connections.length := by
  have hk_c : ((((s.populate_grid).resolve_collisions F)).particles.getD i
      default).kind = .sticky 0 Option.none := by
    show (((Solver.collision_pairs _).foldl (Solver.apply_collision F)
      s.particles).getD i default).kind = _
    exact collisions_fold_kind_sticky_zero F _ _ i Option.none hk
  have hk_n : (((((s.populate_grid).resolve_collisions F)).resolve_connections
      F).particles.getD i default).kind = .sticky 0 Option.none := by
    rw [resolve_connections_particles_kind]
    exact hk_c
  have hsp_n : ((((s.populate_grid).resolve_collisions F)).resolve_connections
      F).special = [i] := hspecial
  have hstep : ((((s.populate_grid).resolve_collisions F)).resolve_connections
      F).resolve_special = (((s.populate_grid).resolve_collisions
      F)).resolve_connections F := by
    unfold Solver.resolve_special
    rw [hsp_n]
    show specialStep _ i = _
    unfold specialStep
    dsimp only
    rw [hk_n]
  show ((((((s.populate_grid).resolve_collisions F)).resolve_connections
    F).resolve_special)).connections.length = s.connections.length
  rw [hstep, resolve_connections_connections_length]
  rfl

/-! ## C2: sticky bind-once (corrected: the sticky index must be registered
in the special list; Solver::new does not register initial particles) -/

/-- C2 counterexample: a solver built by Solver::new around a Sticky particle
with remaining 1 and no pending partner. The particle does collide during
the tick (its pending partner is recorded), yet after solve no connection at
all has been appended and the pending partner is still set, because new()
left the special list empty. -/
theorem sticky_bind_counterexample :
    stickySolverNew.special = [] ∧
    (stickySolverNew.particles.getD 0 default).kind = .sticky 1 Option.none ∧
    (((stickySolverNew.populate_grid).resolve_collisions
      ratFuns).particles.getD 0 default).kind = .sticky 0 (some 1) ∧
    (Solver.solve ratFuns stickySolverNew (1/480)).connections = [] ∧
    ((Solver.solve ratFuns stickySolverNew (1/480)).particles.getD 0
      default).kind = .sticky 0 (some 1) := by
  refine ⟨rfl, rfl, ?_, ?_, ?_⟩
  · with_unfolding_all decide
  · rfl
  · have hcol : ((((stickySolverNew.populate_grid).resolve_collisions
        ratFuns)).particles.getD 0 default).kind = .sticky 0 (some 1) := by
      with_unfolding_all decide
    have hn : (((((stickySolverNew.populate_grid).resolve_collisions
        ratFuns)).resolve_connections ratFuns).particles.getD 0 default).kind
        = .sticky 0 (some 1) := by
      rw [resolve_connections_particles_kind]
      exact hcol
    have hstep : (((((stickySolverNew.populate_grid).resolve_collisions
        ratFuns)).resolve_connections ratFuns)).resolve_special
        = ((((stickySolverNew.populate_grid).resolve_collisions
        ratFuns)).resolve_connections ratFuns) := by
      unfold Solver.resolve_special
      rfl
    have hlen : 0 < (((((stickySolverNew.populate_grid).resolve_collisions
        ratFuns)).resolve_connections ratFuns).resolve_special).particles.length := by
      rw [(resolve_special_frame _).2.1, resolve_connections_particles_length]
      show 0 < (((Solver.collision_pairs _).foldl (Solver.apply_collision
        ratFuns) stickySolverNew.particles)).length
      rw [collisions_fold_length]
      decide
    rw [solve_particles_kind ratFuns stickySolverNew (1/480) 0 hlen, hstep]
    exact hn

/-- C2 as amended: when the sticky particle's index is the solver's only
registered special index (it was added through add_particle or add_model),
remaining is 1, no partner is pending, and the tick's collision phase does
record a partner j, then solve appends exactly one new connection — a
Rigid{length 1, durability 1, elasticity 5} between the two indices — and
clears the pending partner; a second solve appends no further connection. -/
theorem sticky_bind_once (F : FloatFuns) (s : Solver) (dt : ℚ) (i j : ℕ)
    (hspecial : s.special = [i])
    (hkind : (s.particles.getD i default).kind = .sticky 1 Option.none)
    (hcollide : (((s.populate_grid).resolve_collisions F).particles.getD i
      default).kind = .sticky 0 (some j)) :
    ∃ cs, (Solver.solve F s dt).connections = cs ++ [(i, j, Link.rigid 1 1 5)] ∧
      cs.length = s.connections.length ∧
      ((Solver.solve F s dt).particles.getD i default).kind
        = .sticky 0 Option.none ∧
      (Solver.solve F (Solver.solve F s dt) dt).connections.length
        = (Solver.solve F s dt).connections.length := by
  have hk_n : (((((s.populate_grid).resolve_collisions F)).resolve_connections
      F).particles.getD i default).kind = .sticky 0 (some j) := by
    rw [resolve_connections_particles_kind]
    exact hcollide
  have hsp_n : ((((s.populate_grid).resolve_collisions F)).resolve_connections
      F).special = [i] := hspecial
  -- the special sweep fires exactly once
  have hstep : ((((s.populate_grid).resolve_collisions F)).resolve_connections
      F).resolve_special
      = { ((((s.populate_grid).resolve_collisions F)).resolve_connections F) with
            connections := ((((s.populate_grid).resolve_collisions
              F)).resolve_connections F).connections ++ [(i, j, Link.rigid 1 1 5)]
            particles := ((((s.populate_grid).resolve_collisions
              F)).resolve_connections F).particles.set i
              { ((((s.populate_grid).resolve_collisions F)).resolve_connections
                  F).particles.getD i default with
                  kind := .sticky 0 Option.none } } := by
    unfold Solver.resolve_special
    rw [hsp_n]
    show specialStep _ i = _
    unfold specialStep
    dsimp only
    rw [hk_n]
  -- index in range
  have hi : i < s.particles.length := by
    by_contra hge
    have hge2 : (((s.populate_grid).resolve_collisions F).particles.getD i
        default) = default := by
      apply List.getD_eq_default
      show (((Solver.collision_pairs _).foldl (Solver.apply_collision F)
        s.particles)).length ≤ i
      rw [collisions_fold_length]
      omega
    rw [hge2] at hcollide
    exact Kind.noConfusion (show Kind.none = Kind.sticky 0 (some j) from hcollide)
  have hi_n : i < ((((s.populate_grid).resolve_collisions
      F)).resolve_connections F).particles.length := by
    rw [resolve_connections_particles_length]
    show i < (((Solver.collision_pairs _).foldl (Solver.apply_collision F)
      s.particles)).length
    rw [collisions_fold_length]
    exact hi
  have hlen : i < (((((s.populate_grid).resolve_collisions
      F)).resolve_connections F).resolve_special).particles.length := by
    rw [(resolve_special_frame _).2.1]
    exact hi_n
  have hfinal : ((Solver.solve F s dt).particles.getD i default).kind
      = .sticky 0 Option.none := by
    rw [solve_particles_kind F s dt i hlen, hstep, getD_set]
    rw [if_pos ⟨rfl, hi_n⟩]
  refine ⟨((((s.populate_grid).resolve_collisions F)).resolve_connections
    F).connections, ?_, ?_, hfinal, ?_⟩
  · show ((((s.populate_grid).resolve_collisions F)).resolve_connections
      F).resolve_special.connections = _
    rw [hstep]
  · rw [resolve_connections_connections_length]
    rfl
  · exact solve_no_new_connection F _ dt i
      (by rw [solve_special]; exact hspecial) hfinal

/-- C2 witness: the amended theorem evaluated on the concrete registered
sticky scenario (sticky at (0.35, 0.35) against ground at (0.65, 0.35)). -/
theorem sticky_bind_once_witness :
    ∃ cs, (Solver.solve ratFuns stickySolver (1/480)).connections
        = cs ++ [(0, 1, Link.rigid 1 1 5)] ∧
      cs.length = stickySolver.connections.length ∧
      ((Solver.solve ratFuns stickySolver (1/480)).particles.getD 0
        default).kind = .sticky 0 Option.none ∧
      (Solver.solve ratFuns (Solver.solve ratFuns stickySolver (1/480))
          (1/480)).connections.length
        = (Solver.solve ratFuns stickySolver (1/480)).connections.length :=
  sticky_bind_once ratFuns stickySolver (1/480) 0 1
    (by with_unfolding_all decide) (by with_unfolding_all decide)
    (by with_unfolding_all decide)

/-! ## C5: the constraint volume holds after every solve -/

@[simp] theorem Particle.pos_set_position (p : Particle) (pos : Q2) (b : Bool) :
    (p.set_position pos b).pos = pos := rfl

theorem pipeline_radius_getD (F : FloatFuns) (s : Solver) (m : ℕ) :
    (((((s.populate_grid).resolve_collisions F).resolve_connections
      F).resolve_special).particles.getD m default).radius
      = (s.particles.getD m default).radius := by
  rw [(resolve_special_frame _).2.2.1, resolve_connections_particles_radius]
  show (((Solver.collision_pairs _).foldl (Solver.apply_collision F)
    s.particles).getD m default).radius = _
  exact collisions_fold_radius F _ _ m

theorem pipeline_length (F : FloatFuns) (s : Solver) :
    ((((s.populate_grid).resolve_collisions F).resolve_connections
      F).resolve_special).particles.length = s.particles.length := by
  rw [(resolve_special_frame _).2.1, resolve_connections_particles_length]
  show (((Solver.collision_pairs _).foldl (Solver.apply_collision F)
    s.particles)).length = _
  exact collisions_fold_length F _ _

theorem pipeline_constraint (F : FloatFuns) (s : Solver) :
    ((((s.populate_grid).resolve_collisions F).resolve_connections
      F).resolve_special).constraint = s.constraint :=
  (resolve_special_frame _).1

/-- Projection onto a Box constraint clamps both coordinates into
[bl + radius, tr - radius] whenever that interval is nonempty. -/
theorem apply_constraint_bounds (p : Particle) (bl tr : Q2)
    (hx : bl.x + p.radius ≤ tr.x - p.radius)
    (hy : bl.y + p.radius ≤ tr.y - p.radius) :
    (bl.x + p.radius ≤ (p.apply_constraint (.box bl tr)).pos.x ∧
      (p.apply_constraint (.box bl tr)).pos.x ≤ tr.x - p.radius) ∧
    (bl.y + p.radius ≤ (p.apply_constraint (.box bl tr)).pos.y ∧
      (p.apply_constraint (.box bl tr)).pos.y ≤ tr.y - p.radius) := by
  unfold Particle.apply_constraint
  dsimp only
  split_ifs with hne
  · refine ⟨⟨?_, ?_⟩, ?_, ?_⟩ <;> simp only [Particle.pos_set_position]
    · exact le_min (le_max_right _ _) hx
    · exact min_le_right _ _
    · exact le_min (le_max_right _ _) hy
    · exact min_le_right _ _
  · rw [not_not, Prod.mk.injEq] at hne
    obtain ⟨hex, hey⟩ := hne
    rw [← hex, ← hey]
    refine ⟨⟨?_, ?_⟩, ?_, ?_⟩
    · exact le_min (le_max_right _ _) hx
    · exact min_le_right _ _
    · exact le_min (le_max_right _ _) hy
    · exact min_le_right _ _

/-- C5: after solve, every particle's position lies inside the constraint
box shrunk by its radius, provided the box is at least one particle wide for
each particle. -/
theorem solve_constraint_bounds (F : FloatFuns) (s : Solver) (dt : ℚ)
    (bl tr : Q2) (hc : s.constraint = .box bl tr)
    (h : ∀ p ∈ s.particles, bl.x + p.radius ≤ tr.x - p.radius ∧
      bl.y + p.radius ≤ tr.y - p.radius) :
    ∀ p ∈ (Solver.solve F s dt).particles,
      bl.x + p.radius ≤ p.pos.x ∧ p.pos.x ≤ tr.x - p.radius ∧
      bl.y + p.radius ≤ p.pos.y ∧ p.pos.y ≤ tr.y - p.radius := by
  intro p hp
  have hp2 : p ∈ ((((s.populate_grid).resolve_collisions F).resolve_connections
      F).resolve_special).particles.map (fun q =>
        ((q.apply_gravity).update dt).apply_constraint
          ((((s.populate_grid).resolve_collisions F).resolve_connections
            F).resolve_special).constraint) := hp
  rw [List.mem_map] at hp2
  obtain ⟨q, hq, rfl⟩ := hp2
  rw [List.mem_iff_getElem] at hq
  obtain ⟨n, hn, hqn⟩ := hq
  -- the element's radius is its radius in the initial state
  have hrad : q.radius = (s.particles.getD n default).radius := by
    rw [← pipeline_radius_getD F s n, List.getD_eq_getElem?_getD,
      List.getElem?_eq_getElem hn, hqn]
    rfl
  have hn_s : n < s.particles.length := by
    rw [← pipeline_length F s]
    exact hn
  have hmem : s.particles.getD n default ∈ s.particles := by
    rw [List.getD_eq_getElem?_getD, List.getElem?_eq_getElem hn_s]
    exact List.getElem_mem hn_s
  obtain ⟨hbx, hby⟩ := h _ hmem
  have hbx2 : bl.x + q.radius ≤ tr.x - q.radius := by rw [hrad]; exact hbx
  have hby2 : bl.y + q.radius ≤ tr.y - q.radius := by rw [hrad]; exact hby
  have hcon : ((((s.populate_grid).resolve_collisions F).resolve_connections
      F).resolve_special).constraint = Constraint.box bl tr := by
    rw [pipeline_constraint F s]
    exact hc
  rw [hcon]
  have hq2x : bl.x + ((q.apply_gravity).update dt).radius
      ≤ tr.x - ((q.apply_gravity).update dt).radius := by
    simpa using hbx2
  have hq2y : bl.y + ((q.apply_gravity).update dt).radius
      ≤ tr.y - ((q.apply_gravity).update dt).radius := by
    simpa using hby2
  obtain ⟨⟨h1, h2⟩, h3, h4⟩ := apply_constraint_bounds
    ((q.apply_gravity).update dt) bl tr hq2x hq2y
  have hr : (((q.apply_gravity).update dt).apply_constraint
      (.box bl tr)).radius = q.radius := by
    rw [Particle.radius_apply_constraint]
    simp
  rw [hr] at *
  simpa using ⟨h1, h2, h3, h4⟩

/-- C5 witness: the bounds evaluated for particle 0 of the concrete sticky
scenario in the 2 x 2 box. -/
theorem solve_constraint_bounds_witness :
    (0 : ℚ) + ((Solver.solve ratFuns stickySolver (1/480)).particles.getD 0
        default).radius
      ≤ ((Solver.solve ratFuns stickySolver (1/480)).particles.getD 0
        default).pos.x ∧
    ((Solver.solve ratFuns stickySolver (1/480)).particles.getD 0
        default).pos.x
      ≤ 2 - ((Solver.solve ratFuns stickySolver (1/480)).particles.getD 0
        default).radius ∧
    (0 : ℚ) + ((Solver.solve ratFuns stickySolver (1/480)).particles.getD 0
        default).radius
      ≤ ((Solver.solve ratFuns stickySolver (1/480)).particles.getD 0
        default).pos.y ∧
    ((Solver.solve ratFuns stickySolver (1/480)).particles.getD 0
        default).pos.y
      ≤ 2 - ((Solver.solve ratFuns stickySolver (1/480)).particles.getD 0
        default).radius := by
  have hl : 0 < (Solver.solve ratFuns stickySolver (1/480)).particles.length := by
    rw [solve_particles_length]
    decide
  have hmem : (Solver.solve ratFuns stickySolver (1/480)).particles.getD 0
      default ∈ (Solver.solve ratFuns stickySolver (1/480)).particles := by
    rw [List.getD_eq_getElem?_getD, List.getElem?_eq_getElem hl]
    exact List.getElem_mem hl
  exact solve_constraint_bounds ratFuns stickySolver (1/480) ⟨0, 0⟩ ⟨2, 2⟩ rfl
    (by with_unfolding_all decide) _ hmem

/-! ## C6: Impulse interaction (corrected: the skip guard is budget < 0) -/

/-- C6 counterexample: with the budget exactly 0 the claim asserts no
effect, but the source skips only on budget < 0, so the interaction fires:
the acting particle's color is discharged (and the budget goes negative). -/
theorem impulse_budget_zero_counterexample :
    (Solver.resolve_interaction ratFuns { Particle.null with kind := .impulse 0 }
        (Particle.null.with_position ⟨1, 0⟩) 0 1).1.color ≠ Particle.null.color := by
  with_unfolding_all decide

/-- C6 as amended: an Impulse(budget) interaction has no effect when
budget < 0; otherwise (budget = 0 included) the other particle's velocity
becomes the normalized self-to-other direction times IMPULSE_VELOCITY, the
budget drops by IMPULSE_VELOCITY, and the acting particle's RGB channels are
multiplied by 0.95 with alpha untouched. -/
theorem impulse_interaction_spec (F : FloatFuns) (p1 p2 : Particle) (i j : ℕ)
    (imp : ℚ) (hk : p1.kind = .impulse imp) :
    (imp < 0 → Solver.resolve_interaction F p1 p2 i j = (p1, p2)) ∧
    (0 ≤ imp →
      (Solver.resolve_interaction F p1 p2 i j).2.velocity
          = IMPULSE_VELOCITY • ((p2.pos - p1.pos).normalize_or_zero F) ∧
        (Solver.resolve_interaction F p1 p2 i j).1.kind
          = .impulse (imp - IMPULSE_VELOCITY) ∧
        (Solver.resolve_interaction F p1 p2 i j).1.color
          = p1.color * ⟨19/20, 19/20, 19/20, 1⟩) := by
  obtain ⟨rad, m, pos, po, ac, tex, kind, col⟩ := p1
  change kind = Kind.impulse imp at hk
  subst hk
  constructor
  · intro h
    simp only [Solver.resolve_interaction]
    rw [if_pos h]
  · intro h
    simp only [Solver.resolve_interaction]
    rw [if_neg (not_lt.mpr h)]
    exact ⟨Particle.velocity_set_velocity _ _, rfl, rfl⟩

/-- C6 witness: the no-effect direction at budget -1 on concrete particles. -/
theorem impulse_interaction_spec_witness :
    Solver.resolve_interaction ratFuns
        { Particle.null with kind := .impulse (-1) }
        (Particle.null.with_position ⟨1, 0⟩) 0 1
      = ({ Particle.null with kind := .impulse (-1) },
         Particle.null.with_position ⟨1, 0⟩) :=
  (impulse_interaction_spec ratFuns _ _ 0 1 (-1) rfl).1 (by norm_num)

/-! ## C8: Dash (corrected: the assigned velocity is coeff times the
clamped value, not the clamped value itself) -/

theorem getD_enum_map {β : Type} (l : List Particle) (f : ℕ × Particle → β)
    (i : ℕ) (d : β) (hi : i < l.length) :
    (l.enum.map f).getD i d = f (i, l.getD i default) := by
  rw [List.getD_eq_getElem?_getD, List.getElem?_map, List.getElem?_enum,
    List.getElem?_eq_getElem hi, List.getD_eq_getElem?_getD,
    List.getElem?_eq_getElem hi]
  rfl

/-- C8 counterexample: center velocity (1,0) and coefficient 2. The claim
predicts the clamped velocity (1/10, 0); the code assigns
coeff * clamped = (1/5, 0). -/
theorem handle_dash_counterexample :
    ((Controller.handle_packet ratFuns ctrlTest ctrlSolver
      ⟨0, .dash 2⟩).2.particles.getD 0 default).velocity = ⟨1/5, 0⟩ ∧
    ((2 : ℚ) • (ctrlSolver.particles.getD 0 default).velocity).clamp_length
      ratFuns (1/20) (1/10) = ⟨1/10, 0⟩ ∧
    ((⟨1/5, 0⟩ : Q2) ≠ (⟨1/10, 0⟩ : Q2)) := by
  refine ⟨?_, ?_, ?_⟩ <;> with_unfolding_all decide

/-- C8 as amended: handling Dash(coeff) for an alive player sets the
velocity of every particle in the player's model range to coeff times the
clamped value (the center velocity times coeff, clamped in length to
[0.05, 0.1]). -/
theorem handle_dash_spec (F : FloatFuns) (c : Controller) (s : Solver)
    (pid : ℕ) (coeff : ℚ) (k : ℕ)
    (hfind : c.players.findIdx? (fun p => p.id == pid) = some k)
    (halive : player_alive (c.players.getD k default) s = true) :
    ∀ idx, (c.players.getD k default).model.range.1 ≤ idx →
      idx < (c.players.getD k default).model.range.2 →
      idx < s.particles.length →
      ((Controller.handle_packet F c s ⟨pid, .dash coeff⟩).2.particles.getD idx
        default).velocity
        = coeff • ((coeff • (s.particles.getD
            (c.players.getD k default).model.center default).velocity
          ).clamp_length F (1/20) (1/10)) := by
  intro idx h1 h2 h3
  unfold Controller.handle_packet
  rw [hfind]
  simp only [halive, Bool.not_true, Bool.false_eq_true, if_false]
  rw [getD_enum_map _ _ idx default h3]
  rw [if_pos ⟨h1, h2⟩]
  exact Particle.velocity_set_velocity _ _

/-- C8 witness: the amended assignment evaluated at particle 1 of the
concrete dash scenario. -/
theorem handle_dash_spec_witness :
    ((Controller.handle_packet ratFuns ctrlTest ctrlSolver
      ⟨0, .dash 2⟩).2.particles.getD 1 default).velocity
      = (2 : ℚ) • (((2 : ℚ) • (ctrlSolver.particles.getD 0 default).velocity
        ).clamp_length ratFuns (1/20) (1/10)) :=
  handle_dash_spec ratFuns ctrlTest ctrlSolver 0 2 0
    (by with_unfolding_all decide) (by with_unfolding_all decide) 1
    (by with_unfolding_all decide) (by with_unfolding_all decide)
    (by with_unfolding_all decide)

/-! ## Byte-level helper lemmas -/

theorem fromBe4_toBe4 (n : ℕ) (h : n < 2 ^ 32) :
    fromBe4 (n / 2 ^ 24 % 256) (n / 2 ^ 16 % 256) (n / 2 ^ 8 % 256) (n % 256) = n := by
  unfold fromBe4
  omega

theorem to_bytes_length (p : GamePacket) : p.to_bytes.length = PACKET_SIZE := by
  cases p <;> rfl

/-! ## C3: batch codec round trip and split-frame resumption -/

theorem serialize_queue_append {α : Type} (toB : α → List ℕ)
    (a b : List (List (IndexedPacket α))) :
    serialize_queue toB (a ++ b)
      = serialize_queue toB a ++ serialize_queue toB b := by
  unfold serialize_queue
  rw [List.map_append, List.flatten_append]

theorem toBytesWith_length {α : Type} (toB : α → List ℕ) (SIZE : ℕ)
    (hlen : ∀ p, (toB p).length = SIZE) (p : IndexedPacket α) :
    (p.toBytesWith toB).length = SIZE + 1 := by
  simp [IndexedPacket.toBytesWith, hlen]

theorem bucket_bytes_length {α : Type} (toB : α → List ℕ) (SIZE : ℕ)
    (hlen : ∀ p, (toB p).length = SIZE) (b : List (IndexedPacket α)) :
    ((b.map (fun p => p.toBytesWith toB)).flatten).length
      = b.length * (SIZE + 1) := by
  induction b with
  | nil => simp
  | cons p b ih =>
    simp only [List.map_cons, List.flatten_cons, List.length_append, ih,
      toBytesWith_length toB SIZE hlen, List.length_cons]
    ring

theorem parseBucket_append {α : Type} (SIZE : ℕ) (toB : α → List ℕ)
    (fromB : List ℕ → α) (hlen : ∀ p, (toB p).length = SIZE)
    (hrt : ∀ p, fromB (toB p) = p) (b : List (IndexedPacket α))
    (rest : List ℕ) :
    parseBucket SIZE fromB b.length
      ((b.map (fun p => p.toBytesWith toB)).flatten ++ rest) = b := by
  induction b generalizing rest with
  | nil => rfl
  | cons p b ih =>
    show parseBucket SIZE fromB (b.length + 1)
      ((p.toBytesWith toB ++ (b.map (fun p => p.toBytesWith toB)).flatten)
        ++ rest) = p :: b
    rw [List.append_assoc]
    unfold parseBucket
    have h1 : (p.toBytesWith toB ++
        ((b.map (fun p => p.toBytesWith toB)).flatten ++ rest)).take (SIZE + 1)
        = p.toBytesWith toB := by
      rw [← toBytesWith_length toB SIZE hlen p]
      rw [show (p.toBytesWith toB).length
        = (p.toBytesWith toB).length + 0 from rfl]
      rw [List.take_append]
      simp
    have h2 : (p.toBytesWith toB ++
        ((b.map (fun p => p.toBytesWith toB)).flatten ++ rest)).drop (SIZE + 1)
        = (b.map (fun p => p.toBytesWith toB)).flatten ++ rest := by
      rw [← toBytesWith_length toB SIZE hlen p]
      rw [show (p.toBytesWith toB).length
        = (p.toBytesWith toB).length + 0 from rfl]
      rw [List.drop_append]
      simp
    rw [h1, h2, ih]
    unfold IndexedPacket.fromBytesWith IndexedPacket.toBytesWith
    simp [hrt]

theorem deserialize_incomplete {α : Type} (SIZE : ℕ) (fromB : List ℕ → α)
    (len : ℕ) (r : List ℕ) (h : r.length < len * (SIZE + 1)) :
    deserialize_queue SIZE fromB (len :: r) = ([], len :: r) := by
  rw [deserialize_queue]
  rw [if_neg (by omega)]

theorem deserialize_serialize_append {α : Type} (SIZE : ℕ) (toB : α → List ℕ)
    (fromB : List ℕ → α) (hlen : ∀ p, (toB p).length = SIZE)
    (hrt : ∀ p, fromB (toB p) = p) (x : List (List (IndexedPacket α)))
    (hx : ∀ b ∈ x, b.length ≤ 255) (suffix : List ℕ) :
    deserialize_queue SIZE fromB (serialize_queue toB x ++ suffix)
      = (x ++ (deserialize_queue SIZE fromB suffix).1,
         (deserialize_queue SIZE fromB suffix).2) := by
  induction x with
  | nil =>
    show deserialize_queue SIZE fromB ([] ++ suffix) = _
    rw [List.nil_append, List.nil_append]
  | cons b x ih =>
    have hb : b.length < 256 := by
      have := hx b (by simp)
      omega
    have hx2 : ∀ c ∈ x, c.length ≤ 255 := fun c hc => hx c (by simp [hc])
    show deserialize_queue SIZE fromB
      (((b.length % 256) :: (b.map (fun p => p.toBytesWith toB)).flatten
        ++ serialize_queue toB x) ++ suffix) = _
    rw [Nat.mod_eq_of_lt hb]
    rw [List.cons_append, List.cons_append, List.append_assoc]
    rw [deserialize_queue]
    have hguard : b.length * (SIZE + 1)
        ≤ ((b.map (fun p => p.toBytesWith toB)).flatten
          ++ (serialize_queue toB x ++ suffix)).length := by
      rw [List.length_append, bucket_bytes_length toB SIZE hlen]
      omega
    rw [if_pos hguard]
    have hdrop : ((b.map (fun p => p.toBytesWith toB)).flatten
        ++ (serialize_queue toB x ++ suffix)).drop (b.length * (SIZE + 1))
        = serialize_queue toB x ++ suffix := by
      rw [← bucket_bytes_length toB SIZE hlen b]
      rw [show ((b.map (fun p => p.toBytesWith toB)).flatten).length
        = ((b.map (fun p => p.toBytesWith toB)).flatten).length + 0 from rfl]
      rw [List.drop_append]
      simp
    rw [parseBucket_append SIZE toB fromB hlen hrt b, hdrop, ih hx2]
    exact rfl

/-- C3: serialize then deserialize is the identity with a zero residual; and
a prefix cut after a bucket's count header but before that bucket's frames
are complete parses exactly the complete buckets, keeps the tail from that
header as the residual (whose length is the reported residual), and
re-parsing the residual plus the remaining bytes yields the rest of the
batch. -/
theorem queue_codec_spec {α : Type} (SIZE : ℕ) (toB : α → List ℕ)
    (fromB : List ℕ → α) (hlen : ∀ p, (toB p).length = SIZE)
    (hrt : ∀ p, fromB (toB p) = p) (x : List (List (IndexedPacket α)))
    (hx : ∀ b ∈ x, b.length ≤ 255) :
    deserialize_queue SIZE fromB (serialize_queue toB x) = (x, []) ∧
    ∀ k t, k < x.length → 1 ≤ t →
      t < 1 + (SIZE + 1) * (x.getD k []).length →
      (deserialize_queue SIZE fromB ((serialize_queue toB x).take
          ((serialize_queue toB (x.take k)).length + t))).1 = x.take k ∧
      (deserialize_queue SIZE fromB ((serialize_queue toB x).take
          ((serialize_queue toB (x.take k)).length + t))).2
        = (serialize_queue toB (x.drop k)).take t ∧
      ((serialize_queue toB (x.drop k)).take t).length = t ∧
      deserialize_queue SIZE fromB
          ((serialize_queue toB (x.drop k)).take t ++
            (serialize_queue toB x).drop
              ((serialize_queue toB (x.take k)).length + t))
        = (x.drop k, []) := by
  have partA : ∀ (y : List (List (IndexedPacket α))), (∀ b ∈ y, b.length ≤ 255) →
      deserialize_queue SIZE fromB (serialize_queue toB y) = (y, []) := by
    intro y hy
    have h0 : deserialize_queue SIZE fromB ([] : List ℕ)
        = (([] : List (List (IndexedPacket α))), ([] : List ℕ)) := by
      rw [deserialize_queue]
    have h1 := deserialize_serialize_append SIZE toB fromB hlen hrt y hy []
    rw [List.append_nil, h0] at h1
    simpa using h1
  refine ⟨partA x hx, ?_⟩
  intro k t hk ht1 ht2
  have hxk : (x.getD k []) = x[k] := by
    rw [List.getD_eq_getElem?_getD, List.getElem?_eq_getElem hk]
    rfl
  have hxk_le : x[k].length ≤ 255 := hx _ (List.getElem_mem hk)
  have hsplit : serialize_queue toB x
      = serialize_queue toB (x.take k) ++ serialize_queue toB (x.drop k) := by
    rw [← serialize_queue_append, List.take_append_drop]
  have hdropk : x.drop k = x[k] :: x.drop (k + 1) := List.drop_eq_getElem_cons hk
  have hBshape : serialize_queue toB (x.drop k)
      = x[k].length % 256 :: ((x[k].map (fun p => p.toBytesWith toB)).flatten
        ++ serialize_queue toB (x.drop (k + 1))) := by
    rw [hdropk]
    rfl
  have hBlen : 1 + x[k].length * (SIZE + 1)
      ≤ (serialize_queue toB (x.drop k)).length := by
    rw [hBshape]
    simp only [List.length_cons, List.length_append,
      bucket_bytes_length toB SIZE hlen]
    omega
  have htake : (serialize_queue toB x).take
      ((serialize_queue toB (x.take k)).length + t)
      = serialize_queue toB (x.take k)
        ++ (serialize_queue toB (x.drop k)).take t := by
    rw [hsplit, List.take_append]
  have htail : (serialize_queue toB (x.drop k)).take t
      = x[k].length % 256 :: ((x[k].map (fun p => p.toBytesWith toB)).flatten
        ++ serialize_queue toB (x.drop (k + 1))).take (t - 1) := by
    rw [hBshape]
    rcases Nat.exists_eq_add_of_le ht1 with ⟨u, hu⟩
    subst hu
    rw [Nat.add_comm 1 u, List.take_succ_cons]
    simp
  have hinc : deserialize_queue SIZE fromB
      ((serialize_queue toB (x.drop k)).take t) = ([],
        (serialize_queue toB (x.drop k)).take t) := by
    rw [htail]
    apply deserialize_incomplete
    have hlen_take : (((x[k].map (fun p => p.toBytesWith toB)).flatten
        ++ serialize_queue toB (x.drop (k + 1))).take (t - 1)).length ≤ t - 1 := by
      rw [List.length_take]
      omega
    have ht3 : t - 1 < x[k].length * (SIZE + 1) := by
      have hc : (SIZE + 1) * x[k].length = x[k].length * (SIZE + 1) := by ring
      rw [hxk] at ht2
      omega
    rw [Nat.mod_eq_of_lt (by omega)]
    exact lt_of_le_of_lt hlen_take ht3
  have hparse : deserialize_queue SIZE fromB ((serialize_queue toB x).take
      ((serialize_queue toB (x.take k)).length + t))
      = (x.take k, (serialize_queue toB (x.drop k)).take t) := by
    rw [htake, deserialize_serialize_append SIZE toB fromB hlen hrt (x.take k)
      (fun c hc => hx c (List.mem_of_mem_take hc)) _, hinc]
    simp
  refine ⟨by rw [hparse], by rw [hparse], ?_, ?_⟩
  · rw [List.length_take]
    have hc : (SIZE + 1) * x[k].length = x[k].length * (SIZE + 1) := by ring
    rw [hxk] at ht2
    omega
  · have hdrop2 : (serialize_queue toB x).drop
        ((serialize_queue toB (x.take k)).length + t)
        = (serialize_queue toB (x.drop k)).drop t := by
      rw [hsplit, List.drop_append]
    rw [hdrop2, List.take_append_drop]
    exact partA (x.drop k) (fun c hc => hx c (List.mem_of_mem_drop hc))

/-- C3 witness: the combined statement applied to a concrete three-bucket
batch of two-byte packets, with the prefix cut three bytes into the first
bucket (k = 0, t = 3). -/
theorem queue_codec_spec_witness :
    deserialize_queue 2 pairFromB (serialize_queue pairToB batchTest)
        = (batchTest, []) ∧
      (deserialize_queue 2 pairFromB ((serialize_queue pairToB batchTest).take
          ((serialize_queue pairToB (batchTest.take 0)).length + 3))).1
        = batchTest.take 0 := by
  have h := queue_codec_spec 2 pairToB pairFromB (fun p => rfl) (fun p => rfl)
    batchTest (by decide)
  refine ⟨h.1, ?_⟩
  exact (h.2 0 3 (by decide) (by decide) (by decide)).1

/-! ## C4: GamePacket byte round trip -/

/-- C4: for every GamePacket other than None (with fields that are genuine
32-bit patterns and a byte-sized bullet, as the Rust types guarantee),
from_bytes inverts to_bytes: the 9-byte tag + big-endian payload encoding
round-trips every field bit-exactly. -/
theorem gamePacket_from_bytes_to_bytes (p : GamePacket) (hne : p ≠ .none)
    (hwf : p.wf) : GamePacket.from_bytes p.to_bytes = p := by
  cases p with
  | none => exact absurd rfl hne
  | spawn x y =>
    obtain ⟨hx, hy⟩ := hwf
    simp [GamePacket.to_bytes, GamePacket.from_bytes, toBe4]
    constructor <;> (unfold fromBe4; omega)
  | motor ind a =>
    obtain ⟨hi, ha⟩ := hwf
    simp [GamePacket.to_bytes, GamePacket.from_bytes, toBe4]
    constructor <;> (unfold fromBe4; omega)
  | muzzle x y =>
    obtain ⟨hx, hy⟩ := hwf
    simp [GamePacket.to_bytes, GamePacket.from_bytes, toBe4]
    constructor <;> (unfold fromBe4; omega)
  | fire bullet =>
    simp [GamePacket.to_bytes, GamePacket.from_bytes]
  | thrust l r =>
    obtain ⟨hl, hr⟩ := hwf
    simp [GamePacket.to_bytes, GamePacket.from_bytes, toBe4]
    constructor <;> (unfold fromBe4; omega)
  | dash c =>
    have hc : c < 2 ^ 32 := hwf
    simp [GamePacket.to_bytes, GamePacket.from_bytes, toBe4]
    unfold fromBe4
    omega
  | resetMuzzle =>
    rfl

/-- C4 witness: the round trip evaluated on a concrete Motor packet. -/
theorem gamePacket_from_bytes_to_bytes_witness :
    GamePacket.from_bytes (GamePacket.motor 69000 1113377).to_bytes
      = GamePacket.motor 69000 1113377 :=
  gamePacket_from_bytes_to_bytes _ (by decide) (by decide)

/-! ## C7: collision compatibility matrix -/

/-- C7: can_collide_with is false exactly on the unordered pair
(Motor, Spike), in either order, and is therefore symmetric. -/
theorem can_collide_with_motor_spike (k1 k2 : Kind) :
    (k1.can_collide_with k2 = false ↔
      ((∃ a, k1 = .motor a) ∧ k2 = .spike) ∨
      (k1 = .spike ∧ ∃ a, k2 = .motor a)) ∧
    k1.can_collide_with k2 = k2.can_collide_with k1 := by
  cases k1 <;> cases k2 <;>
    simp [Kind.can_collide_with, Kind.is_motor]

/-! ## C9: TimedQueue::take -/

/-- C9: take returns exactly num buckets: the first min(num, len) buckets of
the queue in order, padded at the end with empty buckets, and the queue's
time reference is reset to the moment of the call. -/
theorem timedQueue_take_spec {P : Type} (q : TimedQueue P) (now num : ℕ) :
    ((q.take now num).1).length = num ∧
    (q.take now num).1 =
      q.queue.take (min num q.queue.length) ++
        List.replicate (num - min num q.queue.length) [] ∧
    (q.take now num).2.time = now := by
  refine ⟨?_, ?_, rfl⟩
  · simp [TimedQueue.take, List.length_take]
  · have h : min (min num q.queue.length) q.queue.length = min num q.queue.length := by
      omega
    simp [TimedQueue.take, List.length_take, h]

/-! ## C10: unknown senders are silently discarded -/

/-- C10: a packet whose sender id matches no player in the controller's
players vector leaves both the controller and the solver untouched. -/
theorem handle_packet_unknown_sender (F : FloatFuns) (c : Controller) (s : Solver)
    (pkt : IndexedGamePacketQ) (h : ∀ p ∈ c.players, p.id ≠ pkt.id) :
    Controller.handle_packet F c s pkt = (c, s) := by
  have hnone : c.players.findIdx? (fun p => p.id == pkt.id) = Option.none := by
    rw [List.findIdx?_eq_none_iff]
    intro x hx
    simpa using h x hx
  unfold Controller.handle_packet
  rw [hnone]

/-- C10 witness: a packet from unknown sender 9 against the concrete
controller state is a no-op. -/
theorem handle_packet_unknown_sender_witness :
    Controller.handle_packet ratFuns ctrlTest ctrlSolver ⟨9, .spawn ⟨1, 1⟩⟩
      = (ctrlTest, ctrlSolver) :=
  handle_packet_unknown_sender ratFuns ctrlTest ctrlSolver ⟨9, .spawn ⟨1, 1⟩⟩
    (by decide)

/-! ## C1: lock-step determinism -/

/-- C1: two solver/controller pairs seeded with identical state and applying
the identical ordered sequence of handle_packets and solve operations hold
bit-identical particle arrays after every prefix of the sequence. The
embedding sequentializes the four-colored parallel sweep (whose groups touch
disjoint particles), so every operation is a function of the state and
determinism is functionality. -/
theorem lockstep_determinism (F : FloatFuns) (cs1 cs2 : Controller × Solver)
    (ops1 ops2 : List Op) (hcs : cs1 = cs2) (hops : ops1 = ops2) (n : ℕ) :
    (runOps F cs1 (ops1.take n)).2.particles
      = (runOps F cs2 (ops2.take n)).2.particles := by
  subst hcs
  subst hops
  rfl

/-- C1 witness: one solve step replayed on two copies of the concrete
controller scenario. -/
theorem lockstep_determinism_witness :
    (runOps ratFuns (ctrlTest, ctrlSolver) ([Op.step (1/480)].take 1)).2.particles
      = (runOps ratFuns (ctrlTest, ctrlSolver) ([Op.step (1/480)].take 1)).2.particles :=
  lockstep_determinism ratFuns (ctrlTest, ctrlSolver) (ctrlTest, ctrlSolver)
    [Op.step (1/480)] [Op.step (1/480)] rfl rfl 1

end Smog
